import Mathlib

/-!
# Verification of the answer-validation engine

A shallow embedding of the selector/validator core of the
`matuc-lti-exercise-composer` repository (`src/selectors/*.ts`,
`src/services/validationService.ts`) together with proofs about it.

JavaScript strings are modelled as `List Char`; JavaScript numbers (IEEE-754
doubles) are modelled by `JsNum`: exact rationals for finite values together
with explicit infinities and NaN, with overflow to an infinity at the IEEE
double boundary `2^1024`.  Rounding of in-range finite values is not modelled;
every comparison proved or evaluated in this development is robust to that
abstraction.  Exceptions are modelled with `Except String`.

The mathjs expression engine used by `BaseSelector.safeEvaluate` is not part of
the repository; general theorems are therefore stated over an arbitrary
evaluator `EvalFn`, and concrete test cases use `mathjsEval`, a model of the
fragment of mathjs syntax (decimal/scientific literals, `+ - * / ^`,
parentheses, unary sign, scope variables) actually exercised by those cases.
-/

deriving instance DecidableEq for Except

namespace Matuc

/-- JavaScript strings as character lists. -/
abbrev Str := List Char

/-- Whitespace characters recognised by the regex class `\s` (ASCII subset:
space, tab, line feed, vertical tab, form feed, carriage return). -/
def isWsChar (c : Char) : Bool :=
  c == ' ' || c == '\t' || c == '\n' || c == '\x0b' || c == '\x0c' || c == '\r'

/-- `String.prototype.toLowerCase`, restricted to the ASCII letters that the
inputs of this core use. -/
def jsToLower (c : Char) : Char :=
  if c == 'A' then 'a' else if c == 'B' then 'b' else if c == 'C' then 'c'
  else if c == 'D' then 'd' else if c == 'E' then 'e' else if c == 'F' then 'f'
  else if c == 'G' then 'g' else if c == 'H' then 'h' else if c == 'I' then 'i'
  else if c == 'J' then 'j' else if c == 'K' then 'k' else if c == 'L' then 'l'
  else if c == 'M' then 'm' else if c == 'N' then 'n' else if c == 'O' then 'o'
  else if c == 'P' then 'p' else if c == 'Q' then 'q' else if c == 'R' then 'r'
  else if c == 'S' then 's' else if c == 'T' then 't' else if c == 'U' then 'u'
  else if c == 'V' then 'v' else if c == 'W' then 'w' else if c == 'X' then 'x'
  else if c == 'Y' then 'y' else if c == 'Z' then 'z' else c

/-- Kernel of `.replace(/\s+/g, ' ')`: every maximal whitespace run becomes one
space.  The flag records whether we are inside a run already emitted. -/
def collapseGo : Bool → Str → Str
  | _, [] => []
  | inRun, c :: t =>
      if isWsChar c then
        if inRun then collapseGo true t else ' ' :: collapseGo true t
      else
        c :: collapseGo false t

/-- `.replace(/\s+/g, ' ')`. -/
def collapseWs (s : Str) : Str := collapseGo false s

/-- `String.prototype.trim` (both ends). -/
def jsTrim (s : Str) : Str :=
  ((s.dropWhile isWsChar).reverse.dropWhile isWsChar).reverse

/-- Fuel-indexed kernel of `String.prototype.replace` with a global literal
pattern: leftmost, non-overlapping.  The fuel dominates the input length, so
`replaceAll` below always runs to completion. -/
def replaceAllF (p r : Str) : Nat → Str → Str
  | _, [] => []
  | 0, s => s
  | fuel + 1, c :: t =>
      if p.isPrefixOf (c :: t) && !p.isEmpty then
        r ++ replaceAllF p r fuel (t.drop (p.length - 1))
      else
        c :: replaceAllF p r fuel t

/-- `.replace(/pattern/g, replacement)` for a literal pattern. -/
def replaceAll (p r s : Str) : Str := replaceAllF p r s.length s

/-- `String.prototype.includes`: `q` occurs as a contiguous substring of `s`. -/
def hasSub (q : Str) : Str → Bool
  | [] => q.isEmpty
  | c :: t => q.isPrefixOf (c :: t) || hasSub q t

/-- `v` is a suffix of `r` (boolean). -/
def isSuffixOfB (v r : Str) : Bool := v.reverse.isPrefixOf r.reverse

/-- `String.prototype.split(sep)` for a single-character separator. -/
def splitChar (sep : Char) : Str → List Str
  | [] => [[]]
  | c :: t =>
      let rest := splitChar sep t
      if c == sep then [] :: rest
      else
        match rest with
        | [] => [[c]]
        | piece :: more => (c :: piece) :: more

/-- Number of occurrences of a character (used for the comma count check). -/
def countChar (ch : Char) (s : Str) : Nat := (s.filter (· == ch)).length

end Matuc

namespace Matuc

/-- Exact rational numbers with kernel-computable arithmetic (the `Rat`
operations of the core library do not reduce inside the kernel, which this
development needs for `decide`-checked concrete runs).  All constructors used
below keep the value normalised: positive denominator, coprime with the
numerator. -/
structure Q where
  n : Int
  d : Nat
deriving DecidableEq, Repr

namespace Q

/-- Normalise a numerator/denominator pair (denominator must be positive). -/
def norm (n : Int) (d : Nat) : Q :=
  if d = 0 then ⟨0, 1⟩
  else
    let g := Nat.gcd n.natAbs d
    ⟨n / (g : Int), d / g⟩

def ofInt (z : Int) : Q := ⟨z, 1⟩

instance : OfNat Q k := ⟨ofInt k⟩

def add (a b : Q) : Q := norm (a.n * (b.d : Int) + b.n * (a.d : Int)) (a.d * b.d)

def neg (a : Q) : Q := ⟨-a.n, a.d⟩

def sub (a b : Q) : Q := add a (neg b)

def mul (a b : Q) : Q := norm (a.n * b.n) (a.d * b.d)

def div (a b : Q) : Q :=
  let m := a.n * (b.d : Int)
  let dd := (a.d : Int) * b.n
  if dd < 0 then norm (-m) (-dd).toNat else norm m dd.toNat

def absQ (a : Q) : Q := ⟨(a.n.natAbs : Int), a.d⟩

/-- `a ≤ b` by cross multiplication (denominators are positive). -/
def leB (a b : Q) : Bool := a.n * (b.d : Int) ≤ b.n * (a.d : Int)

/-- `a < b`. -/
def ltB (a b : Q) : Bool := a.n * (b.d : Int) < b.n * (a.d : Int)

def isZero (a : Q) : Bool := a.n == 0

def powNat (b : Q) : Nat → Q
  | 0 => ⟨1, 1⟩
  | k + 1 => mul b (powNat b k)

/-- `10 ^ k` as an integer. -/
def tenPow : Nat → Int
  | 0 => 1
  | k + 1 => 10 * tenPow k

end Q

/-- A JavaScript number (IEEE-754 double), with finite values kept as exact
rationals.  `other` stands for any non-number value an evaluator may return
(mathjs can produce matrices, complex numbers, ...), rejected by the
`typeof result === 'number'` checks in the selectors. -/
inductive JsNum where
  | num (q : Q)
  | posInf
  | negInf
  | nan
  | other (desc : String)
deriving DecidableEq, Repr

namespace JsNum

/-- Smallest magnitude at which IEEE-754 double conversion overflows
(`2 ^ 1024`, written out so that it reduces without exponentiation). -/
def overflowBound : Q :=
  ⟨179769313486231590772930519078902473361797697894230657273430081157732675805500963132708477322407536021120113879871393357658789768814416622492847430639474124377767893424865485276302219601246094119453082952085005768838150682342462881473913110540827237163350510684586298239947245938479716304835356329624224137216, 1⟩

/-- Clamp an exact rational into the double range (overflow to an infinity;
in-range values are kept exact; rounding of in-range values is not
modelled). -/
def ofRat (q : Q) : JsNum :=
  if Q.leB overflowBound q then posInf
  else if Q.leB q (Q.neg overflowBound) then negInf
  else num q

/-- `typeof v === 'number'`. -/
def isNumber : JsNum → Bool
  | other _ => false
  | _ => true

/-- `isNaN(v)` (on numbers). -/
def isNaN : JsNum → Bool
  | nan => true
  | _ => false

/-- `isFinite(v)`. -/
def isFinite : JsNum → Bool
  | num _ => true
  | _ => false

/-- Double addition. -/
def add : JsNum → JsNum → JsNum
  | num a, num b => ofRat (Q.add a b)
  | num _, posInf => posInf
  | num _, negInf => negInf
  | posInf, num _ => posInf
  | negInf, num _ => negInf
  | posInf, posInf => posInf
  | negInf, negInf => negInf
  | posInf, negInf => nan
  | negInf, posInf => nan
  | _, _ => nan

/-- Double negation. -/
def neg : JsNum → JsNum
  | num a => num (Q.neg a)
  | posInf => negInf
  | negInf => posInf
  | nan => nan
  | other d => other d

/-- Double subtraction. -/
def sub (a b : JsNum) : JsNum := add a (neg b)

/-- Double multiplication. -/
def mul : JsNum → JsNum → JsNum
  | num a, num b => ofRat (Q.mul a b)
  | num a, posInf => if a.isZero then nan else if Q.ltB 0 a then posInf else negInf
  | num a, negInf => if a.isZero then nan else if Q.ltB 0 a then negInf else posInf
  | posInf, num b => if b.isZero then nan else if Q.ltB 0 b then posInf else negInf
  | negInf, num b => if b.isZero then nan else if Q.ltB 0 b then negInf else posInf
  | posInf, posInf => posInf
  | negInf, negInf => posInf
  | posInf, negInf => negInf
  | negInf, posInf => negInf
  | _, _ => nan

/-- Double division. -/
def div : JsNum → JsNum → JsNum
  | num a, num b =>
      if b.isZero then (if a.isZero then nan else if Q.ltB 0 a then posInf else negInf)
      else ofRat (Q.div a b)
  | num _, posInf => num 0
  | num _, negInf => num 0
  | posInf, num b => if Q.leB 0 b then posInf else negInf
  | negInf, num b => if Q.leB 0 b then negInf else posInf
  | _, _ => nan

/-- `Math.abs`. -/
def abs : JsNum → JsNum
  | num a => num (Q.absQ a)
  | posInf => posInf
  | negInf => posInf
  | nan => nan
  | other d => other d

/-- `v <= (bound : Q)` with IEEE comparison semantics (`NaN` and non-numbers
compare false, `-Infinity` compares true). -/
def leRat (v : JsNum) (bound : Q) : Bool :=
  match v with
  | num a => Q.leB a bound
  | negInf => true
  | _ => false

/-- `a >= b` with IEEE comparison semantics. -/
def geB : JsNum → JsNum → Bool
  | num a, num b => Q.leB b a
  | num _, negInf => true
  | num _, _ => false
  | posInf, num _ => true
  | posInf, posInf => true
  | posInf, negInf => true
  | negInf, negInf => true
  | negInf, _ => false
  | _, _ => false

/-- Integer power of a rational base with double overflow. -/
def powInt (b : Q) (z : Int) : JsNum :=
  if 0 ≤ z then ofRat (Q.powNat b z.toNat)
  else if b.isZero then posInf
  else ofRat (Q.powNat (Q.div 1 b) (-z).toNat)

/-- `a ^ b` for the fragment needed here: integer exponents of finite bases.
Fractional exponents (which mathjs evaluates through real/complex `pow`) are
outside the modelled fragment and reported as an evaluation error by the
parser below. -/
def pow : JsNum → JsNum → Option JsNum
  | num a, num b => if b.d = 1 then some (powInt a b.n) else none
  | posInf, num b =>
      if b.isZero then some (num 1)
      else if Q.ltB 0 b then some posInf else some (num 0)
  | negInf, num b => if b.isZero then some (num 1) else none
  | _, _ => none

end JsNum

/-- Variable scope passed to the evaluator (`{ X: 2, C: 1 }`, ...). -/
abbrev Scope := List (String × JsNum)

/-- An expression evaluator: models `evaluate(expr, scope)` from mathjs.
General theorems quantify over this type. -/
abbrev EvalFn := Str → Scope → Except String JsNum

/-- A symbolic-derivative engine: models `derivative(parse(expr), var)`
followed by `.evaluate(scope)` from mathjs.  Only used by the antiderivative
selector; no theorem in this development depends on a concrete instance. -/
abbrev DerivFn := Str → String → Except String (Scope → Except String JsNum)

end Matuc

namespace Matuc

/-! ## A model of the mathjs evaluator fragment used by the concrete tests -/

def isDigit (c : Char) : Bool := '0' ≤ c && c ≤ '9'

def isAlpha (c : Char) : Bool := ('a' ≤ c && c ≤ 'z') || ('A' ≤ c && c ≤ 'Z')

def digitVal (c : Char) : Nat := c.toNat - '0'.toNat

/-- Parse a maximal digit run, returning its value, its length and the rest. -/
def lexDigits : Str → Nat → Nat → (Nat × Nat × Str)
  | [], acc, n => (acc, n, [])
  | c :: t, acc, n =>
      if isDigit c then lexDigits t (acc * 10 + digitVal c) (n + 1)
      else (acc, n, c :: t)

/-- Parse a decimal/scientific numeric literal (`42`, `42.0`, `10.02`,
`1e309`, ...).  Returns its exact rational value and the rest of the input. -/
def lexNumber (s : Str) : Option (Q × Str) :=
  let (ip, ipLen, s₁) := lexDigits s 0 0
  let (fp, fpLen, s₂) :=
    match s₁ with
    | '.' :: t => lexDigits t 0 0
    | _ => (0, 0, s₁)
  if ipLen + fpLen = 0 then none
  else
    let mant : Q := Q.add (Q.ofInt ip) (Q.div (Q.ofInt fp) ⟨Q.tenPow fpLen, 1⟩)
    match s₂ with
    | 'e' :: t | 'E' :: t =>
        let (sgn, t₁) : (Bool × Str) :=
          match t with
          | '-' :: t' => (true, t')
          | '+' :: t' => (false, t')
          | _ => (false, t)
        let (ex, exLen, t₂) := lexDigits t₁ 0 0
        if exLen = 0 then none
        else if sgn then some (Q.div mant ⟨Q.tenPow ex, 1⟩, t₂)
        else some (Q.mul mant ⟨Q.tenPow ex, 1⟩, t₂)
    | _ => some (mant, s₂)

def lexIdent (s : Str) : (Str × Str) :=
  (s.takeWhile isAlpha, s.dropWhile isAlpha)

def skipWsP (s : Str) : Str := s.dropWhile isWsChar

/-- Grammar level currently being parsed (single recursive descent function,
kept structurally recursive on a fuel argument so that terms reduce in the
kernel). -/
inductive PMode where
  | expr | term | unary | power
  | exprLoop (acc : JsNum) | termLoop (acc : JsNum)

/-- Recursive-descent parser-evaluator:
`expr := term (('+'|'-') term)*`, `term := unary (('*'|'/') unary)*`,
`unary := ('-'|'+') unary | power`, `power := atom ('^' unary)?` (right
associative, as in mathjs), `atom := '(' expr ')' | literal | variable`. -/
def parseM : Nat → PMode → Scope → Str → Except String (JsNum × Str)
  | 0, _, _, _ => .error "parser fuel exhausted"
  | fuel + 1, mode, sc, s =>
      match mode with
      | .expr => do
          let (a, s₁) ← parseM fuel .term sc s
          parseM fuel (.exprLoop a) sc s₁
      | .exprLoop acc =>
          match skipWsP s with
          | '+' :: t => do
              let (b, s') ← parseM fuel .term sc t
              parseM fuel (.exprLoop (JsNum.add acc b)) sc s'
          | '-' :: t => do
              let (b, s') ← parseM fuel .term sc t
              parseM fuel (.exprLoop (JsNum.sub acc b)) sc s'
          | _ => .ok (acc, s)
      | .term => do
          let (a, s₁) ← parseM fuel .unary sc s
          parseM fuel (.termLoop a) sc s₁
      | .termLoop acc =>
          match skipWsP s with
          | '*' :: t => do
              let (b, s') ← parseM fuel .unary sc t
              parseM fuel (.termLoop (JsNum.mul acc b)) sc s'
          | '/' :: t => do
              let (b, s') ← parseM fuel .unary sc t
              parseM fuel (.termLoop (JsNum.div acc b)) sc s'
          | _ => .ok (acc, s)
      | .unary =>
          match skipWsP s with
          | '-' :: t => do
              let (a, s') ← parseM fuel .unary sc t
              .ok (JsNum.neg a, s')
          | '+' :: t => parseM fuel .unary sc t
          | t => parseM fuel .power sc t
      | .power => do
          let (a, s₁) ←
            match skipWsP s with
            | '(' :: t => do
                let (a, s₂) ← parseM fuel .expr sc t
                match skipWsP s₂ with
                | ')' :: s' => .ok ((a : JsNum), (s' : Str))
                | _ => .error "expected closing parenthesis"
            | t =>
                match lexNumber t with
                | some (q, s') => .ok (JsNum.ofRat q, s')
                | none =>
                    let (id, s') := lexIdent t
                    if id.isEmpty then .error "unexpected token"
                    else
                      match sc.lookup (String.mk id) with
                      | some v => .ok (v, s')
                      | none => .error ("undefined symbol " ++ String.mk id)
          match skipWsP s₁ with
          | '^' :: t => do
              let (b, s') ← parseM fuel .unary sc t
              match JsNum.pow a b with
              | some v => .ok (v, s')
              | none => .error "pow outside modelled fragment"
          | _ => .ok (a, s₁)

/-- Model of `evaluate(expr, scope)` from mathjs for the fragment exercised by
the concrete test inputs of this development.  Unsupported constructs are
evaluation errors. -/
def mathjsEval : EvalFn := fun s sc => do
  let (v, rest) ← parseM (s.length * 3 + 16) .expr sc s
  if (skipWsP rest).isEmpty then
    if v.isNumber then .ok v else .error "non-numeric result"
  else .error "unexpected trailing input"

end Matuc

namespace Matuc

/-! ## Data model (`src/selectors/types.ts`) -/

/-- `ValidationResult`.  The open metadata map of the source is projected to
the discriminator `metadata.type` (field `mtype`) and the `metadata.difference`
payload, the only metadata fields this development reasons about; the
`timestamp` and the purely informational payloads (parsed values, analysis
reports, match lists) are not recorded. -/
structure ValidationResult where
  ok : Option Bool
  title : String
  msg : String
  mtype : String
  difference : Option JsNum := none
deriving DecidableEq, Repr

/-- `SelectorConfig`, with the defaults every selector fills in at
construction.  Custom formatters are arbitrary caller code and may throw,
hence `Except`. -/
structure SelectorConfig where
  tolerance : Q := ⟨1, 100⟩
  caseSensitive : Bool := false
  stripSpaces : Bool := true
  customFormatters : List (Str → Except String Str) := []
  timeout : Nat := 5000
  maxIterations : Nat := 1000
  debugMode : Bool := false

/-! ## BaseSelector (`src/selectors/BaseSelector.ts`) -/

namespace BaseSelector

/-- The fixed substitution table of `applyMathematicalNormalizations`, in
source order: infinity glyph (two-stage, `∞ → infty → 1e309`), inverse-trig
aliases, arithmetic glyphs, and set-operator glyphs. -/
def mathRules : List (Str × Str) :=
  [("∞".data, "infty".data),
   ("infty".data, "1e309".data),
   ("arcsin".data, "asin".data),
   ("arccos".data, "acos".data),
   ("arctan".data, "atan".data),
   ("×".data, "*".data),
   ("÷".data, "/".data),
   ("π".data, "pi".data),
   ("√".data, "sqrt".data),
   ("∪".data, "U".data),
   ("∩".data, "I".data),
   ("∈".data, "in".data),
   ("∉".data, "notin".data),
   ("⊂".data, "subset".data),
   ("⊆".data, "subseteq".data)]

/-- Run a substitution table left to right. -/
def applyRules : List (Str × Str) → Str → Str
  | [], s => s
  | (p, r) :: rest, s => applyRules rest (replaceAll p r s)

/-- `applyMathematicalNormalizations`: the substitution chain followed by the
final `.replace(/\s+/g, ' ')`. -/
def applyMathematicalNormalizations (s : Str) : Str :=
  collapseWs (applyRules mathRules s)

/-- Run the caller-supplied custom formatters in order. -/
def applyFormatters : List (Str → Except String Str) → Str → Except String Str
  | [], s => .ok s
  | f :: fs, s => do applyFormatters fs (← f s)

/-- `normalizeInput`: whitespace collapse + trim when `stripSpaces`,
lower-casing when case-insensitive, mathematical substitutions, custom
formatters. -/
def normalizeInput (cfg : SelectorConfig) (input : Str) : Except String Str :=
  let n₁ := if cfg.stripSpaces then jsTrim (collapseWs input) else input
  let n₂ := if cfg.caseSensitive then n₁ else n₁.map jsToLower
  applyFormatters cfg.customFormatters (applyMathematicalNormalizations n₂)

/-- `normalizeInput` when no custom formatters are configured (then it is a
pure function). -/
def normalizePure (cfg : SelectorConfig) (input : Str) : Str :=
  let n₁ := if cfg.stripSpaces then jsTrim (collapseWs input) else input
  let n₂ := if cfg.caseSensitive then n₁ else n₁.map jsToLower
  applyMathematicalNormalizations n₂

/-- `validateEmpty`: the distinguished `ok = null` result on inputs that trim
to the empty string. -/
def validateEmpty (input : Str) : Option ValidationResult :=
  if jsTrim input = [] then
    some { ok := none
           title := "¡Atención!"
           msg := "No has ingresado una respuesta"
           mtype := "empty_input" }
  else none

/-- `createErrorResponse` (metadata defaults to `type: 'error'` when the call
site passes none). -/
def createErrorResponse (title msg : String) (mtype : String := "error")
    (difference : Option JsNum := none) : ValidationResult :=
  { ok := some false, title := title, msg := msg, mtype := mtype,
    difference := difference }

/-- `createSuccessResponse` (metadata defaults to `type: 'success'`). -/
def createSuccessResponse (title msg : String) (mtype : String := "success")
    (difference : Option JsNum := none) : ValidationResult :=
  { ok := some true, title := title, msg := msg, mtype := mtype,
    difference := difference }

end BaseSelector

open BaseSelector

/-! ## NumberSelector (`src/selectors/NumberSelector.ts`)

Selector methods return `Except String ValidationResult`: the `.error` case is
a JavaScript exception escaping the method (only possible here when a custom
formatter throws inside `normalizeInput`, which the source calls outside its
`try` blocks); every fault inside a `try` block is converted to an error
*result*.  Interpolated fragments of user-facing messages are elided. -/

namespace NumberSelector

def validate (ev : EvalFn) (cfg : SelectorConfig) (input : Str) :
    Except String ValidationResult :=
  match validateEmpty input with
  | some r => .ok r
  | none => do
      let normalized ← normalizeInput cfg input
      match ev normalized [] with
      | .ok v =>
          if v.isNumber && !v.isNaN && v.isFinite then
            .ok (createSuccessResponse "Número válido" "es un número válido"
                  "number_validation")
          else
            .ok (createErrorResponse "¡Cuidado!"
                  "Tu respuesta no representa un número válido" "invalid_number")
      | .error _ =>
          .ok (createErrorResponse "Error de evaluación"
                "No se pudo evaluar la expresión como número" "evaluation_error")

def compare (ev : EvalFn) (cfg : SelectorConfig) (correct userInput : Str) :
    Except String ValidationResult :=
  match validateEmpty userInput with
  | some r => .ok r
  | none => do
      let correctValidation ← validate ev cfg correct
      let userValidation ← validate ev cfg userInput
      if correctValidation.ok ≠ some true then
        .ok (createErrorResponse "Error del sistema"
              "La respuesta correcta no es un número válido" "system_error")
      else if userValidation.ok ≠ some true then
        .ok userValidation
      else
        .ok (match (do
                let correctNorm ← normalizeInput cfg correct
                let userNorm ← normalizeInput cfg userInput
                let correctValue ← ev correctNorm []
                let userValue ← ev userNorm []
                pure (correctValue, userValue) : Except String (JsNum × JsNum)) with
             | .ok (cv, uv) =>
                 let difference := JsNum.abs (JsNum.sub cv uv)
                 if JsNum.leRat difference cfg.tolerance then
                   createSuccessResponse "¡Excelente!"
                     "Has encontrado la respuesta correcta" "correct_answer"
                     (some difference)
                 else
                   createErrorResponse "Sigue intentando"
                     "Tu respuesta difiere de la esperada" "tolerance_exceeded"
                     (some difference)
             | .error _ =>
                 createErrorResponse "Error de comparación"
                   "No se pudo comparar las respuestas numéricas" "comparison_error")

end NumberSelector

/-! ## VectorSelector (`src/selectors/VectorSelector.ts`) -/

/-- Index of the first occurrence of a character (the call sites only use it
after a format check guarantees the character occurs). -/
def firstIdxOf (ch : Char) (s : Str) : Nat := s.findIdx (· == ch)

/-- Index of the last occurrence of a character (same proviso). -/
def lastIdxOf (ch : Char) (s : Str) : Nat := s.length - 1 - s.reverse.findIdx (· == ch)

/-- Shared shape of `extractVectorComponents` / `extractPointCoordinates`:
substring between the first `lc` and the last `rc`, split on commas, trimmed,
empties dropped. -/
def extractBetween (lc rc : Char) (s : Str) : List Str :=
  let content := (s.take (lastIdxOf rc s)).drop (firstIdxOf lc s + 1)
  ((splitChar ',' content).map jsTrim).filter (· ≠ [])

/-- Component-wise evaluation loop shared by vector validation: stops at the
first empty, non-numeric or non-evaluable component with the corresponding
error result. -/
def evalComponents (ev : EvalFn) (emptyType invalidType : String) :
    List Str → Except ValidationResult (List JsNum)
  | [] => .ok []
  | comp :: rest =>
      if comp = [] then
        .error (createErrorResponse "Componente inválido"
                 "componente vacío o indefinido" emptyType)
      else
        match ev comp [] with
        | .ok v =>
            if v.isNumber && v.isFinite then do
              let vs ← evalComponents ev emptyType invalidType rest
              .ok (v :: vs)
            else
              .error (createErrorResponse "Componente inválido"
                       "no es un número válido" invalidType)
        | .error _ =>
            .error (createErrorResponse "Error de evaluación"
                     "No se pudo evaluar el componente" "evaluation_error")

/-- Evaluate every entry (`Promise.all`): the first rejection escapes to the
enclosing `try`. -/
def evalAll (ev : EvalFn) : List Str → Except String (List JsNum)
  | [] => .ok []
  | c :: rest => do
      let v ← ev c []
      let vs ← evalAll ev rest
      .ok (v :: vs)

namespace VectorSelector

/-- Regex `^\s*\[\s*[^\[\]]*\s*\]\s*$`. -/
def hasVectorFormat (s : Str) : Bool :=
  let t := jsTrim s
  match t with
  | '[' :: rest =>
      match rest.getLast? with
      | some ']' => rest.dropLast.all (fun c => !(c == '[') && !(c == ']'))
      | _ => false
  | _ => false

def extractVectorComponents (s : Str) : List Str := extractBetween '[' ']' s

def validate (ev : EvalFn) (cfg : SelectorConfig) (input : Str) :
    Except String ValidationResult :=
  match validateEmpty input with
  | some r => .ok r
  | none => do
      let normalized ← normalizeInput cfg input
      if !hasVectorFormat normalized then
        .ok (createErrorResponse "Error de formato"
              "Un vector debe tener la forma [a, b, c, ...]" "invalid_format")
      else
        match evalComponents ev "invalid_component" "invalid_component"
                (extractVectorComponents normalized) with
        | .error r => .ok r
        | .ok _ =>
            .ok (createSuccessResponse "Vector válido" "es un vector válido"
                  "valid_vector")

def compare (ev : EvalFn) (cfg : SelectorConfig) (correct userInput : Str) :
    Except String ValidationResult :=
  match validateEmpty userInput with
  | some r => .ok r
  | none => do
      let correctValidation ← validate ev cfg correct
      let userValidation ← validate ev cfg userInput
      if correctValidation.ok ≠ some true then
        .ok (createErrorResponse "Error del sistema"
              "El vector de respuesta correcta es inválido")
      else if userValidation.ok ≠ some true then
        .ok userValidation
      else
        .ok (match (do
                let cn ← normalizeInput cfg correct
                let un ← normalizeInput cfg userInput
                let correctComponents := extractVectorComponents cn
                let userComponents := extractVectorComponents un
                if correctComponents.length ≠ userComponents.length then
                  pure (createErrorResponse "Dimensión incorrecta"
                         "Tu vector no tiene la dimensión esperada"
                         "dimension_mismatch")
                else do
                  let correctValues ← evalAll ev correctComponents
                  let userValues ← evalAll ev userComponents
                  let componentMatches := List.zipWith
                    (fun c u => JsNum.leRat (JsNum.abs (JsNum.sub c u)) cfg.tolerance)
                    correctValues userValues
                  if componentMatches.all id then
                    pure (createSuccessResponse "¡Excelente!"
                           "Tu vector coincide exactamente con la solución"
                           "perfect_vector_match")
                  else
                    pure (createErrorResponse "Vector incorrecto"
                           "No todos los componentes son correctos"
                           "partial_vector_match")
                  : Except String ValidationResult) with
             | .ok r => r
             | .error _ =>
                 createErrorResponse "Error de comparación"
                   "No se pudo comparar los vectores" "comparison_error")

end VectorSelector

/-! ## PointSelector (`src/selectors/PointSelector.ts`) -/

namespace PointSelector

/-- Regex `^\s*\(\s*[^\(\)]*\s*\)\s*$`. -/
def hasPointFormat (s : Str) : Bool :=
  let t := jsTrim s
  match t with
  | '(' :: rest =>
      match rest.getLast? with
      | some ')' => rest.dropLast.all (fun c => !(c == '(') && !(c == ')'))
      | _ => false
  | _ => false

def extractPointCoordinates (s : Str) : List Str := extractBetween '(' ')' s

def validate (ev : EvalFn) (cfg : SelectorConfig) (input : Str) :
    Except String ValidationResult :=
  match validateEmpty input with
  | some r => .ok r
  | none => do
      let normalized ← normalizeInput cfg input
      if !hasPointFormat normalized then
        .ok (createErrorResponse "Error de formato"
              "Un punto debe tener la forma (a, b) o (a, b, c, ...)"
              "invalid_format")
      else
        match evalComponents ev "empty_coordinate" "invalid_coordinate"
                (extractPointCoordinates normalized) with
        | .error r => .ok r
        | .ok _ =>
            .ok (createSuccessResponse "Punto válido" "es un punto válido"
                  "valid_point")

def compare (ev : EvalFn) (cfg : SelectorConfig) (correct userInput : Str) :
    Except String ValidationResult :=
  match validateEmpty userInput with
  | some r => .ok r
  | none => do
      let correctValidation ← validate ev cfg correct
      let userValidation ← validate ev cfg userInput
      if correctValidation.ok ≠ some true then
        .ok (createErrorResponse "Error del sistema"
              "El punto de respuesta correcta es inválido")
      else if userValidation.ok ≠ some true then
        .ok userValidation
      else
        .ok (match (do
                let cn ← normalizeInput cfg correct
                let un ← normalizeInput cfg userInput
                let correctCoords := extractPointCoordinates cn
                let userCoords := extractPointCoordinates un
                if correctCoords.length ≠ userCoords.length then
                  pure (createErrorResponse "Dimensión incorrecta"
                         "Tu punto no tiene la dimensión esperada"
                         "dimension_mismatch")
                else do
                  let correctValues ← evalAll ev correctCoords
                  let userValues ← evalAll ev userCoords
                  let coordinateMatches := List.zipWith
                    (fun c u => JsNum.leRat (JsNum.abs (JsNum.sub c u)) cfg.tolerance)
                    correctValues userValues
                  if coordinateMatches.all id then
                    pure (createSuccessResponse "¡Excelente!"
                           "Tu punto coincide exactamente con la solución"
                           "perfect_point_match")
                  else
                    pure (createErrorResponse "Punto incorrecto"
                           "No todas las coordenadas son correctas"
                           "partial_point_match")
                  : Except String ValidationResult) with
             | .ok r => r
             | .error _ =>
                 createErrorResponse "Error de comparación"
                   "No se pudo comparar los puntos" "comparison_error")

end PointSelector

/-! ## SetSelector (`src/selectors/SetSelector.ts`) -/

/-- `parseFloat`: longest valid numeric prefix after leading whitespace and an
optional sign; `NaN` when there is none.  The `Infinity` literal, never
produced by the inputs of this core, is not modelled. -/
def jsParseFloat (s : Str) : JsNum :=
  match s.dropWhile isWsChar with
  | '-' :: t =>
      match lexNumber t with
      | some (q, _) => JsNum.ofRat (Q.neg q)
      | none => JsNum.nan
  | '+' :: t =>
      match lexNumber t with
      | some (q, _) => JsNum.ofRat q
      | none => JsNum.nan
  | t =>
      match lexNumber t with
      | some (q, _) => JsNum.ofRat q
      | none => JsNum.nan

/-- Ordering used to model `Array.prototype.sort` on the evaluated elements of
a discrete set.  The JavaScript default comparator sorts by string
representation; on the single-digit numeric literals exercised by this
development that coincides with the numeric order modelled here. -/
def jsNumLtB : JsNum → JsNum → Bool
  | JsNum.num a, JsNum.num b => Q.ltB a b
  | JsNum.negInf, JsNum.negInf => false
  | JsNum.negInf, _ => true
  | _, JsNum.negInf => false
  | JsNum.num _, _ => true
  | _, JsNum.num _ => false
  | _, _ => false

def insertSorted (x : JsNum) : List JsNum → List JsNum
  | [] => [x]
  | y :: t => if jsNumLtB x y then x :: y :: t else y :: insertSorted x t

def sortJsNums : List JsNum → List JsNum
  | [] => []
  | x :: t => insertSorted x (sortJsNums t)

namespace SetSelector

/-- `parseUnionParts`: replace `∪` by `U`, split on `U`, trim, drop empties. -/
def parseUnionParts (s : Str) : List Str :=
  ((splitChar 'U' (replaceAll "∪".data "U".data s)).map jsTrim).filter (· ≠ [])

/-- Regex `^[\(\[]([^,\[\]\(\)]+),([^,\[\]\(\)]+)[\)\]]$` on the trimmed
string. -/
def isInterval (s : Str) : Bool :=
  match jsTrim s with
  | [] => false
  | lb :: rest =>
      match rest.getLast? with
      | some rb =>
          let mid := rest.dropLast
          (lb == '(' || lb == '[') && (rb == ')' || rb == ']') &&
          mid.all (fun c =>
            !(c == '[') && !(c == ']') && !(c == '(') && !(c == ')')) &&
          (match splitChar ',' mid with
           | [a, b] => !a.isEmpty && !b.isEmpty
           | _ => false)
      | none => false

/-- Regex `^\{[^}]*\}$` on the trimmed string. -/
def isDiscreteSet (s : Str) : Bool :=
  match jsTrim s with
  | [] => false
  | lb :: rest =>
      match rest.getLast? with
      | some rb => lb == '{' && rb == '}' && rest.dropLast.all (fun c => !(c == '}'))
      | none => false

/-- `validateInterval`: bracket/comma syntax, evaluable finite endpoints in
strictly increasing order.  Evaluation exceptions are caught to an
`evaluation_error` result; the syntactic and order failures use
`createErrorResponse` without a metadata argument, so their `metadata.type`
is the default `error`. -/
def validateInterval (ev : EvalFn) (_cfg : SelectorConfig) (interval : Str) :
    ValidationResult :=
  let t := jsTrim interval
  let leftBracket := t.headD ' '
  let rightBracket := t.getLastD ' '
  let content := (t.drop 1).dropLast
  if countChar ',' content ≠ 1 then
    createErrorResponse "Error de formato"
      "Un intervalo debe tener exactamente dos valores separados por una coma"
  else
    if !((leftBracket == '(' || leftBracket == '[') &&
         (rightBracket == ')' || rightBracket == ']')) then
      createErrorResponse "Error de formato"
        "Un intervalo debe usar paréntesis () o corchetes []"
    else
      let parts := (splitChar ',' content).map jsTrim
      let left := parts.headD []
      let right := parts.getD 1 []
      if left = [] || right = [] then
        createErrorResponse "Error de formato"
          "Los valores del intervalo no pueden estar vacíos"
      else
        match (do
            let l ← ev left []
            let r ← ev right []
            pure (l, r) : Except String (JsNum × JsNum)) with
        | .error _ =>
            createErrorResponse "Error de evaluación"
              "No se pudo evaluar el intervalo" "evaluation_error"
        | .ok (leftValue, rightValue) =>
            if !(leftValue.isNumber && leftValue.isFinite) then
              createErrorResponse "Error en el primer valor" "no es un número válido"
            else if !(rightValue.isNumber && rightValue.isFinite) then
              createErrorResponse "Error en el segundo valor" "no es un número válido"
            else if JsNum.geB leftValue rightValue then
              createErrorResponse "Error en el orden"
                "El primer valor debe ser menor que el segundo"
            else
              createSuccessResponse "Intervalo válido" "es un intervalo válido"
                "valid_interval"

/-- Element loop of `validateDiscreteSet`: an evaluation exception escapes (to
be caught as `evaluation_error`), a non-number evaluation yields the
`invalid_element` result.  The deduplication and sorting of the source only
feed the success metadata and are not recorded. -/
def validateDiscreteLoop (ev : EvalFn) : List Str → Except String (Option ValidationResult)
  | [] => .ok none
  | el :: rest => do
      let v ← ev el []
      if !v.isNumber then
        .ok (some (createErrorResponse "Elemento inválido" "no es un número válido"
              "invalid_element"))
      else
        validateDiscreteLoop ev rest

def validateDiscreteSet (ev : EvalFn) (discreteSet : Str) : ValidationResult :=
  let content := jsTrim ((discreteSet.drop 1).dropLast)
  if content = [] then
    createSuccessResponse "Conjunto vacío válido" "El conjunto vacío es válido"
      "valid_empty_set"
  else
    let elements := ((splitChar ',' content).map jsTrim).filter (· ≠ [])
    match validateDiscreteLoop ev elements with
    | .error _ =>
        createErrorResponse "Error de evaluación"
          "No se pudo evaluar el conjunto discreto" "evaluation_error"
    | .ok (some r) => r
    | .ok none =>
        createSuccessResponse "Conjunto discreto válido" "conjunto válido"
          "valid_discrete_set"

def validateSetPart (ev : EvalFn) (cfg : SelectorConfig) (part : Str) :
    ValidationResult :=
  if isInterval part then validateInterval ev cfg part
  else if isDiscreteSet part then validateDiscreteSet ev part
  else
    createErrorResponse "Parte inválida"
      "no es ni intervalo ni conjunto discreto válido" "invalid_part"

def validate (ev : EvalFn) (cfg : SelectorConfig) (input : Str) :
    Except String ValidationResult :=
  match validateEmpty input with
  | some r => .ok r
  | none => do
      let normalized ← normalizeInput cfg input
      let unionParts := parseUnionParts normalized
      let validationResults := unionParts.map fun part => validateSetPart ev cfg (jsTrim part)
      let invalidParts := validationResults.filter fun r => r.ok ≠ some true
      if invalidParts.length = 0 then
        .ok (createSuccessResponse "Conjunto válido" "es un conjunto válido" "valid_set")
      else
        .ok (createErrorResponse "Conjunto inválido"
              "El conjunto contiene partes inválidas" "invalid_set")

/-- `compareDiscreteSets`: bag comparison of `parseFloat`ed, sorted elements
within tolerance (see `jsNumLtB` on the sort model).  The body of the source
cannot throw, so its `catch` arm is unreachable. -/
def compareDiscreteSets (cfg : SelectorConfig) (set1 set2 : Str) : Bool :=
  let content1 := (set1.drop 1).dropLast
  let content2 := (set2.drop 1).dropLast
  if jsTrim content1 = [] && jsTrim content2 = [] then true
  else
    let elements1 := sortJsNums ((splitChar ',' content1).map fun el => jsParseFloat (jsTrim el))
    let elements2 := sortJsNums ((splitChar ',' content2).map fun el => jsParseFloat (jsTrim el))
    elements1.length = elements2.length &&
      (List.zipWith
        (fun a b => JsNum.leRat (JsNum.abs (JsNum.sub a b)) cfg.tolerance)
        elements1 elements2).all id

/-- `compareIntervals`: equal brackets and `parseFloat`ed endpoints within
tolerance. -/
def compareIntervals (cfg : SelectorConfig) (interval1 interval2 : Str) : Bool :=
  let left1 := interval1.headD ' '
  let right1 := interval1.getLastD ' '
  let content1 := splitChar ',' ((interval1.drop 1).dropLast)
  let left2 := interval2.headD ' '
  let right2 := interval2.getLastD ' '
  let content2 := splitChar ',' ((interval2.drop 1).dropLast)
  if !(left1 == left2) || !(right1 == right2) then false
  else if content1.length < 2 || content2.length < 2 then false
  else
    let val1Left := jsParseFloat (jsTrim (content1.headD []))
    let val1Right := jsParseFloat (jsTrim (content1.getD 1 []))
    let val2Left := jsParseFloat (jsTrim (content2.headD []))
    let val2Right := jsParseFloat (jsTrim (content2.getD 1 []))
    JsNum.leRat (JsNum.abs (JsNum.sub val1Left val2Left)) cfg.tolerance &&
    JsNum.leRat (JsNum.abs (JsNum.sub val1Right val2Right)) cfg.tolerance

def arePartsEquivalent (cfg : SelectorConfig) (part1 part2 : Str) : Bool :=
  let norm1 := jsTrim part1
  let norm2 := jsTrim part2
  if norm1 = norm2 then true
  else if isDiscreteSet norm1 && isDiscreteSet norm2 then
    compareDiscreteSets cfg norm1 norm2
  else if isInterval norm1 && isInterval norm2 then
    compareIntervals cfg norm1 norm2
  else false

/-- Remove the first list entry satisfying the predicate
(`findIndex` + `splice`). -/
def findRemove (p : Str → Bool) : List Str → Option (List Str)
  | [] => none
  | u :: us => if p u then some us else (findRemove p us).map (u :: ·)

/-- `findPartMatches` iterates the correct parts from the last index downward,
removing the first equivalent user part each time; modelled by recursing over
the reversed correct list.  (The parts reaching this function are nonempty, so
the `!!correctPart` guard of the source is always true.)  Returns the match
count and the leftover parts. -/
def matchLoopRev (cfg : SelectorConfig) : List Str → List Str → Nat × List Str × List Str
  | [], users => (0, [], users)
  | c :: restRev, users =>
      match findRemove (fun u => arePartsEquivalent cfg c u) users with
      | some users' =>
          let (n, um, uu) := matchLoopRev cfg restRev users'
          (n + 1, um, uu)
      | none =>
          let (n, um, uu) := matchLoopRev cfg restRev users
          (n, c :: um, uu)

def findPartMatches (cfg : SelectorConfig) (correctParts userParts : List Str) :
    Nat × List Str × List Str :=
  let (n, umRev, uu) := matchLoopRev cfg correctParts.reverse userParts
  (n, umRev.reverse, uu)

def compareSetStructure (_ev : EvalFn) (cfg : SelectorConfig)
    (correct userInput : Str) : ValidationResult :=
  match (do
      let cn ← normalizeInput cfg correct
      let un ← normalizeInput cfg userInput
      pure (cn, un) : Except String (Str × Str)) with
  | .error _ =>
      createErrorResponse "Error de comparación" "No se pudo comparar los conjuntos"
        "comparison_error"
  | .ok (cn, un) =>
      let correctParts := parseUnionParts cn
      let userParts := parseUnionParts un
      if correctParts.length ≠ userParts.length then
        createErrorResponse "Número de partes incorrecto"
          "Tu conjunto no tiene el número esperado de partes" "part_count_mismatch"
      else
        let partMatches := findPartMatches cfg correctParts userParts
        if partMatches.1 = correctParts.length then
          createSuccessResponse "¡Perfecto!"
            "Tu conjunto coincide exactamente con la solución" "perfect_match"
        else
          createErrorResponse "Partes no coinciden"
            "No todas las partes coinciden" "partial_match"

/-- `SetSelector.compare` checks the user's format failure before the system
one, unlike the other selectors. -/
def compare (ev : EvalFn) (cfg : SelectorConfig) (correct userInput : Str) :
    Except String ValidationResult :=
  match validateEmpty userInput with
  | some r => .ok r
  | none => do
      let correctValidation ← validate ev cfg correct
      let userValidation ← validate ev cfg userInput
      if userValidation.ok ≠ some true then
        .ok userValidation
      else if correctValidation.ok ≠ some true then
        .ok (createErrorResponse "Error del sistema"
              "El conjunto de respuesta correcta es inválido")
      else
        .ok (compareSetStructure ev cfg correct userInput)

end SetSelector

/-! ## FormulaSelector (`src/selectors/FormulaSelector.ts`) -/

namespace FormulaSelector

/-- Validation sample points `[0.1, 0.5, 1, 2, 5]`. -/
def validatePoints : List Q := [⟨1, 10⟩, ⟨1, 2⟩, 1, 2, 5]

/-- Comparison sample points
`[-5, -2, -1, -0.5, -0.1, 0, 0.1, 0.5, 1, 2, 5, 10, 20]`. -/
def generateTestPoints : List Q :=
  [⟨-5, 1⟩, ⟨-2, 1⟩, ⟨-1, 1⟩, ⟨-1, 2⟩, ⟨-1, 10⟩, 0, ⟨1, 10⟩, ⟨1, 2⟩, 1, 2, 5, 10, 20]

/-- Point loop of `validate`: the first point whose evaluation throws or is
not a finite number yields the corresponding error result. -/
def checkFormulaPoints (ev : EvalFn) (normalized : Str) :
    List Q → Option ValidationResult
  | [] => none
  | p :: rest =>
      match ev normalized [("X", JsNum.num p)] with
      | .ok v =>
          if !(v.isNumber && v.isFinite) then
            some (createErrorResponse "Fórmula inválida"
                   "La fórmula no produce un número válido" "invalid_formula_output")
          else checkFormulaPoints ev normalized rest
      | .error _ =>
          some (createErrorResponse "Error de evaluación"
                 "No se pudo evaluar la fórmula" "evaluation_error")

def validate (ev : EvalFn) (cfg : SelectorConfig) (input : Str) :
    Except String ValidationResult :=
  match validateEmpty input with
  | some r => .ok r
  | none => do
      let normalized₀ ← normalizeInput cfg input
      let normalized := replaceAll "x".data "X".data normalized₀
      match checkFormulaPoints ev normalized validatePoints with
      | some r => .ok r
      | none =>
          .ok (createSuccessResponse "Fórmula válida" "es una fórmula válida en x"
                "valid_formula")

/-- One comparison point: both evaluations must succeed and agree within
tolerance; an exception at either counts as a mismatch. -/
def formulaPointMatches (ev : EvalFn) (cfg : SelectorConfig) (cn un : Str)
    (p : Q) : Bool :=
  match ev cn [("X", JsNum.num p)], ev un [("X", JsNum.num p)] with
  | .ok cv, .ok uv => JsNum.leRat (JsNum.abs (JsNum.sub cv uv)) cfg.tolerance
  | _, _ => false

def countFormulaMatches (ev : EvalFn) (cfg : SelectorConfig) (cn un : Str)
    (pts : List Q) : Nat :=
  (pts.filter (formulaPointMatches ev cfg cn un)).length

def compare (ev : EvalFn) (cfg : SelectorConfig) (correct userInput : Str) :
    Except String ValidationResult :=
  match validateEmpty userInput with
  | some r => .ok r
  | none => do
      let correctValidation ← validate ev cfg correct
      let userValidation ← validate ev cfg userInput
      if correctValidation.ok ≠ some true then
        .ok (createErrorResponse "Error del sistema"
              "La fórmula de respuesta correcta es inválida")
      else if userValidation.ok ≠ some true then
        .ok userValidation
      else
        .ok (match (do
                let cn ← normalizeInput cfg correct
                let un ← normalizeInput cfg userInput
                pure (replaceAll "x".data "X".data cn,
                      replaceAll "x".data "X".data un)
                : Except String (Str × Str)) with
             | .error _ =>
                 createErrorResponse "Error de comparación"
                   "No se pudo comparar las fórmulas" "comparison_error"
             | .ok (correctNorm, userNorm) =>
                 let testPoints := generateTestPoints
                 let totalMatches :=
                   countFormulaMatches ev cfg correctNorm userNorm testPoints
                 let successRate :=
                   Q.mul (Q.div (Q.ofInt totalMatches) (Q.ofInt testPoints.length)) 100
                 if Q.leB 90 successRate then
                   createSuccessResponse "¡Excelente!"
                     "Tu fórmula coincide con la solución" "formula_match"
                 else
                   createErrorResponse "Fórmula incorrecta"
                     "Tu fórmula no coincide en suficientes puntos" "formula_mismatch")

end FormulaSelector

/-! ## EquationSelector (`src/selectors/EquationSelector.ts`) -/

namespace EquationSelector

/-- `validateExpression`: evaluable finite number at `x ∈ {0, 1, -1, 2}`
(exceptions count as invalid). -/
def validateExpression (ev : EvalFn) (expr : Str) : List Q → Bool
  | [] => true
  | p :: rest =>
      match ev expr [("X", JsNum.num p)] with
      | .ok v => v.isNumber && v.isFinite && validateExpression ev expr rest
      | .error _ => false

def exprTestPoints : List Q := [0, 1, ⟨-1, 1⟩, 2]

def validate (ev : EvalFn) (cfg : SelectorConfig) (input : Str) :
    Except String ValidationResult :=
  match validateEmpty input with
  | some r => .ok r
  | none => do
      let normalized₀ ← normalizeInput cfg input
      let normalized := replaceAll "x".data "X".data normalized₀
      if !(hasSub "=".data normalized) then
        .ok (createErrorResponse "Formato inválido"
              "Una ecuación debe contener el símbolo de igualdad (=)"
              "missing_equals")
      else
        match splitChar '=' normalized with
        | [p₁, p₂] =>
            let leftSide := jsTrim p₁
            let rightSide := jsTrim p₂
            if leftSide = [] || rightSide = [] then
              .ok (createErrorResponse "Ecuación incompleta"
                    "Ambos lados de la ecuación deben contener expresiones"
                    "incomplete_equation")
            else if !validateExpression ev leftSide exprTestPoints then
              .ok (createErrorResponse "Lado izquierdo inválido"
                    "Error en el lado izquierdo" "invalid_left_side")
            else if !validateExpression ev rightSide exprTestPoints then
              .ok (createErrorResponse "Lado derecho inválido"
                    "Error en el lado derecho" "invalid_right_side")
            else
              -- `analyzeEquation` only populates the success metadata (its
              -- evaluations are fully caught) and is not recorded.
              .ok (createSuccessResponse "Ecuación válida" "es una ecuación válida"
                    "valid_equation")
        | _ =>
            .ok (createErrorResponse "Formato inválido"
                  "Una ecuación debe tener exactamente un símbolo de igualdad"
                  "multiple_equals")

/-- `` `(${left}) - (${right})` ``. -/
def equationDiff (l r : Str) : Str :=
  '(' :: l ++ (')' :: ' ' :: '-' :: ' ' :: '(' :: r) ++ [')']

/-- Comparison sample points `[-5, -2, -1, -0.5, 0, 0.5, 1, 2, 5]`. -/
def compareTestPoints : List Q :=
  [⟨-5, 1⟩, ⟨-2, 1⟩, ⟨-1, 1⟩, ⟨-1, 2⟩, 0, ⟨1, 2⟩, 1, 2, 5]

def compare (ev : EvalFn) (cfg : SelectorConfig) (correct userInput : Str) :
    Except String ValidationResult :=
  match validateEmpty userInput with
  | some r => .ok r
  | none => do
      let correctValidation ← validate ev cfg correct
      let userValidation ← validate ev cfg userInput
      if correctValidation.ok ≠ some true then
        .ok (createErrorResponse "Error del sistema"
              "La ecuación de respuesta correcta es inválida")
      else if userValidation.ok ≠ some true then
        .ok userValidation
      else
        .ok (match (do
                let cn ← normalizeInput cfg correct
                let un ← normalizeInput cfg userInput
                pure (replaceAll "x".data "X".data cn,
                      replaceAll "x".data "X".data un)
                : Except String (Str × Str)) with
             | .error _ =>
                 createErrorResponse "Error de comparación"
                   "No se pudo comparar las ecuaciones" "comparison_error"
             | .ok (correctNorm, userNorm) =>
                 let cParts := (splitChar '=' correctNorm).map jsTrim
                 let uParts := (splitChar '=' userNorm).map jsTrim
                 let correctDiff := equationDiff (cParts.headD []) (cParts.getD 1 [])
                 let userDiff := equationDiff (uParts.headD []) (uParts.getD 1 [])
                 let totalMatches := FormulaSelector.countFormulaMatches ev cfg
                   correctDiff userDiff compareTestPoints
                 let successRate :=
                   Q.mul (Q.div (Q.ofInt totalMatches) (Q.ofInt compareTestPoints.length))
                     100
                 if Q.leB 85 successRate then
                   createSuccessResponse "¡Excelente!"
                     "Tu ecuación es equivalente a la solución" "equation_match"
                 else
                   createErrorResponse "Ecuación incorrecta"
                     "Tu ecuación no coincide en suficientes puntos"
                     "equation_mismatch")

end EquationSelector

/-! ## AntiderivativeSelector (`src/selectors/AntiderivativeSelector.ts`)

The symbolic `derivative` of mathjs is modelled by an abstract `DerivFn`
parameter; no theorem below depends on a concrete instance. -/

namespace AntiderivativeSelector

/-- `v < (bound : Q)` strictly, IEEE semantics. -/
def jsLtRat (v : JsNum) (bound : Q) : Bool :=
  match v with
  | JsNum.num a => Q.ltB a bound
  | JsNum.negInf => true
  | _ => false

/-- `v > (bound : Q)` strictly, IEEE semantics. -/
def jsGtRat (v : JsNum) (bound : Q) : Bool :=
  match v with
  | JsNum.num a => Q.ltB bound a
  | JsNum.posInf => true
  | _ => false

/-- `validateAntiderivativeExpression`: finite numeric value at six `(X, C)`
pairs; exceptions count as invalid. -/
def validateAntiderivativeExpression (ev : EvalFn) (expr : Str) : Bool :=
  [((1 : Q), (0 : Q)), (1, 1), (1, 5), (2, 0), (2, 1), (⟨-1, 1⟩, 2)].all
    fun xc =>
      match ev expr [("X", JsNum.num xc.1), ("C", JsNum.num xc.2)] with
      | .ok v => v.isNumber && v.isFinite
      | .error _ => false

/-- Evaluate a derived expression at a list of scopes; any exception
invalidates the whole check. -/
def evalDerivAt (d : Scope → Except String JsNum) :
    List Scope → Option (List JsNum)
  | [] => some []
  | sc :: rest =>
      match d sc with
      | .ok v => (evalDerivAt d rest).map (v :: ·)
      | .error _ => none

/-- `checkForConstantOfIntegration`: the expression must mention `C` and its
symbolic derivative with respect to `C` must evaluate, at
`C ∈ {1, 2, 5, 10}` (with `X = 1`), to values that are all equal within
tolerance (strict) and nonzero beyond tolerance (strict). -/
def checkForConstantOfIntegration (dv : DerivFn)
    (cfg : SelectorConfig) (expr : Str) : Bool :=
  if !(hasSub "C".data expr) then false
  else
    match dv expr "C" with
    | .error _ => false
    | .ok d =>
        match evalDerivAt d
            ([1, 2, 5, 10].map fun p => [("C", JsNum.num p), ("X", JsNum.num 1)]) with
        | none => false
        | some vals =>
            let firstValue := vals.headD JsNum.nan
            let allEqual := vals.all fun v =>
              jsLtRat (JsNum.abs (JsNum.sub v firstValue)) cfg.tolerance
            let isNonZero := jsGtRat (JsNum.abs firstValue) cfg.tolerance
            allEqual && isNonZero

/-- `checkDerivativeRespectToC`: the derivative with respect to `C` must be
the same nonzero constant across six `(X, C)` combinations (an evaluation
exception anywhere fails the check through the enclosing `catch`). -/
def checkDerivativeRespectToC (dv : DerivFn)
    (cfg : SelectorConfig) (expr : Str) : Bool :=
  match dv expr "C" with
  | .error _ => false
  | .ok d =>
      match evalDerivAt d
          ([((0 : Q), (1 : Q)), (1, 1), (2, 1), (0, 5), (1, 5), (2, 5)].map
            fun xc => [("X", JsNum.num xc.1), ("C", JsNum.num xc.2)]) with
      | none => false
      | some vals =>
          let firstValue := vals.headD JsNum.nan
          let allConstant := vals.all fun v =>
            jsLtRat (JsNum.abs (JsNum.sub v firstValue)) cfg.tolerance
          let isNonZero := jsGtRat (JsNum.abs firstValue) cfg.tolerance
          allConstant && isNonZero

def validate (ev : EvalFn) (dv : DerivFn) (cfg : SelectorConfig) (input : Str) :
    Except String ValidationResult :=
  match validateEmpty input with
  | some r => .ok r
  | none => do
      let normalized₀ ← normalizeInput cfg input
      let normalized := replaceAll "x".data "X".data normalized₀
      if !validateAntiderivativeExpression ev normalized then
        .ok (createErrorResponse "Expresión inválida"
              "La expresión no es válida como antiderivada"
              "invalid_antiderivative_expression")
      else if !checkForConstantOfIntegration dv cfg normalized then
        .ok (createErrorResponse "Falta constante de integración"
              "Una antiderivada general debe incluir la constante de integración C"
              "missing_constant")
      else if !checkDerivativeRespectToC dv cfg normalized then
        .ok (createErrorResponse "No es una antiderivada válida"
              "La derivada respecto a C no es constante" "invalid_antiderivative")
      else
        .ok (createSuccessResponse "Antiderivada válida"
              "es una antiderivada general válida" "valid_antiderivative")

/-- Derivative comparison sample points `[-2, -1, -0.5, 0.5, 1, 2, 3, 5]`. -/
def derivTestPoints : List Q := [⟨-2, 1⟩, ⟨-1, 1⟩, ⟨-1, 2⟩, ⟨1, 2⟩, 1, 2, 3, 5]

/-- `compareDerivatives`: symbolic derivatives with respect to `X` of both
sides, compared at the eight sample points with `C = 1`; per-point exceptions
count as mismatches, a failure to derive yields `(false, rate 0)`. -/
def compareDerivatives (dv : DerivFn) (cfg : SelectorConfig)
    (antiderivative1 antiderivative2 : Str) : Bool × Q :=
  match dv antiderivative1 "X", dv antiderivative2 "X" with
  | .ok df, .ok dg =>
      let pointMatch := fun (x : Q) =>
        let context : Scope := [("X", JsNum.num x), ("C", JsNum.num 1)]
        match df context, dg context with
        | .ok dfValue, .ok dgValue =>
            JsNum.leRat (JsNum.abs (JsNum.sub dfValue dgValue)) cfg.tolerance
        | _, _ => false
      let matchCount := (derivTestPoints.filter pointMatch).length
      let matchRate :=
        Q.mul (Q.div (Q.ofInt matchCount) (Q.ofInt derivTestPoints.length)) 100
      (Q.leB 90 matchRate, matchRate)
  | _, _ => (false, 0)

def compare (ev : EvalFn) (dv : DerivFn) (cfg : SelectorConfig)
    (correct userInput : Str) : Except String ValidationResult :=
  match validateEmpty userInput with
  | some r => .ok r
  | none => do
      let correctValidation ← validate ev dv cfg correct
      let userValidation ← validate ev dv cfg userInput
      if correctValidation.ok ≠ some true then
        .ok (createErrorResponse "Error del sistema"
              "La antiderivada de respuesta correcta es inválida")
      else if userValidation.ok ≠ some true then
        .ok userValidation
      else
        .ok (match (do
                let cn ← normalizeInput cfg correct
                let un ← normalizeInput cfg userInput
                pure (replaceAll "x".data "X".data cn,
                      replaceAll "x".data "X".data un)
                : Except String (Str × Str)) with
             | .error _ =>
                 createErrorResponse "Error de comparación"
                   "No se pudo comparar las antiderivadas" "comparison_error"
             | .ok (correctNorm, userNorm) =>
                 let derivativeComparison := compareDerivatives dv cfg correctNorm userNorm
                 if derivativeComparison.1 then
                   createSuccessResponse "¡Excelente!" "Tu antiderivada es correcta"
                     "antiderivative_match"
                 else
                   createErrorResponse "Antiderivada incorrecta"
                     "Las derivadas no coinciden" "antiderivative_mismatch")

end AntiderivativeSelector

/-! ## SelectorFactory (`src/selectors/SelectorFactory.ts`) -/

/-- A constructed validator: its two public operations, closed over the
evaluator and the configuration. -/
structure Selector where
  validate : Str → Except String ValidationResult
  compare : Str → Str → Except String ValidationResult

namespace SelectorFactory

/-- The statically registered shape identifiers, in registration order. -/
def supportedTypes : List String :=
  ["numero", "conjunto", "vector", "punto", "formula", "ecuacion", "antiderivada"]

/-- `createSelector`: dispatch on the shape identifier; an unregistered shape
throws (`.error`). -/
def createSelector (ev : EvalFn) (dv : DerivFn) (ty : String)
    (cfg : SelectorConfig) : Except String Selector :=
  if ty = "numero" then
    .ok ⟨NumberSelector.validate ev cfg, NumberSelector.compare ev cfg⟩
  else if ty = "conjunto" then
    .ok ⟨SetSelector.validate ev cfg, SetSelector.compare ev cfg⟩
  else if ty = "vector" then
    .ok ⟨VectorSelector.validate ev cfg, VectorSelector.compare ev cfg⟩
  else if ty = "punto" then
    .ok ⟨PointSelector.validate ev cfg, PointSelector.compare ev cfg⟩
  else if ty = "formula" then
    .ok ⟨FormulaSelector.validate ev cfg, FormulaSelector.compare ev cfg⟩
  else if ty = "ecuacion" then
    .ok ⟨EquationSelector.validate ev cfg, EquationSelector.compare ev cfg⟩
  else if ty = "antiderivada" then
    .ok ⟨AntiderivativeSelector.validate ev dv cfg,
         AntiderivativeSelector.compare ev dv cfg⟩
  else
    .error ("Selector tipo '" ++ ty ++ "' no está implementado aún")

/-- `validateResponse`: construct-then-compare, converting any escaped
exception into an `ok = false` result with `metadata.type = "factory_error"`.
Total by construction: no exception reaches the caller. -/
def validateResponse (ev : EvalFn) (dv : DerivFn) (ty : String)
    (correct userInput : Str) (cfg : SelectorConfig) : ValidationResult :=
  match (do
      let sel ← createSelector ev dv ty cfg
      sel.compare correct userInput : Except String ValidationResult) with
  | .ok r => r
  | .error _ =>
      { ok := some false, title := "Error del sistema",
        msg := "Error creando selector", mtype := "factory_error" }

/-- `validateFormat`: construct-then-validate, converting any escaped
exception into an `ok = false` result with
`metadata.type = "validation_error"`. -/
def validateFormat (ev : EvalFn) (dv : DerivFn) (ty : String) (input : Str)
    (cfg : SelectorConfig) : ValidationResult :=
  match (do
      let sel ← createSelector ev dv ty cfg
      sel.validate input : Except String ValidationResult) with
  | .ok r => r
  | .error _ =>
      { ok := some false, title := "Error del sistema",
        msg := "Error validando formato", mtype := "validation_error" }

end SelectorFactory

/-! ## ValidationService (`src/services/validationService.ts`)

The timeout values threaded through the service (`selectorsConfig` lives in
`src/config/selectors.ts`, which only sets numbers) have no semantic effect in
this model, and the wall-clock performance metadata is not recorded. -/

structure ValidationRequest where
  ty : String
  correctAnswer : Str
  userAnswer : Str
  cfg : SelectorConfig := {}

structure BatchValidationRequest where
  exerciseId : String
  validations : List ValidationRequest

/-- `BatchValidationResult` (`processingTime` is wall-clock time and not
modelled).  Each result carries its original index. -/
structure BatchValidationResult where
  exerciseId : String
  results : List (ValidationResult × Nat)
  totalScore : Nat
  maxScore : Nat
  allCorrect : Bool
deriving DecidableEq

namespace ValidationService

/-- Body of the `try` in `validateSingle`; its only fallible call,
`SelectorFactory.validateResponse`, already catches internally. -/
def validateSingleBody (ev : EvalFn) (dv : DerivFn) (req : ValidationRequest) :
    Except String ValidationResult :=
  .ok (SelectorFactory.validateResponse ev dv req.ty req.correctAnswer
        req.userAnswer req.cfg)

/-- `validateSingle`: catch-all around the body. -/
def validateSingle (ev : EvalFn) (dv : DerivFn) (req : ValidationRequest) :
    ValidationResult :=
  match validateSingleBody ev dv req with
  | .ok r => r
  | .error _ =>
      { ok := some false, title := "Error de validación",
        msg := "Error interno al validar la respuesta", mtype := "validation_error" }

def mapWithIndex (f : Nat → ValidationRequest → ValidationResult × Nat) :
    Nat → List ValidationRequest → List (ValidationResult × Nat)
  | _, [] => []
  | i, v :: t => f i v :: mapWithIndex f (i + 1) t

/-- The chunked loop of `validateBatch`: windows of `concurrencyLimit = 5`
requests, each result tagged with its global index.  (Within a window the
requests run concurrently in the source, but each is an independent pure
computation whose result is stitched back by index, so the window order is
observationally sequential.) -/
def batchLoopF (ev : EvalFn) (dv : DerivFn) :
    Nat → Nat → List ValidationRequest → List (ValidationResult × Nat)
  | 0, _, _ => []
  | _, _, [] => []
  | fuel + 1, i, l =>
      mapWithIndex (fun j v => (validateSingle ev dv v, j)) i (l.take 5) ++
        batchLoopF ev dv fuel (i + 5) (l.drop 5)

def batchLoop (ev : EvalFn) (dv : DerivFn) (l : List ValidationRequest) :
    List (ValidationResult × Nat) :=
  batchLoopF ev dv l.length 0 l

/-- The batch result the service assembles when nothing throws. -/
def mkBatchResult (ev : EvalFn) (dv : DerivFn) (request : BatchValidationRequest) :
    BatchValidationResult :=
  let results := batchLoop ev dv request.validations
  let totalScore := (results.filter fun r => r.1.ok = some true).length
  let maxScore := results.length
  { exerciseId := request.exerciseId
    results := results
    totalScore := totalScore
    maxScore := maxScore
    allCorrect := totalScore = maxScore }

/-- Body of the `try` in `validateBatch`; built from `validateSingle`, which
never throws. -/
def validateBatchBody (ev : EvalFn) (dv : DerivFn)
    (request : BatchValidationRequest) : Except String BatchValidationResult :=
  .ok (mkBatchResult ev dv request)

/-- `validateBatch`: unlike the other entry points, its `catch` re-throws a
wrapped error — but the body cannot reject, so the wrapped re-throw is dead
code (proved below). -/
def validateBatch (ev : EvalFn) (dv : DerivFn) (request : BatchValidationRequest) :
    Except String BatchValidationResult :=
  match validateBatchBody ev dv request with
  | .ok b => .ok b
  | .error e => .error ("Error procesando validación en lote: " ++ e)

/-- `validateWithTimeout`: `Promise.race` between `validateSingle` and a
timer; the boolean argument records which side of the race won.  A timeout
rejection is converted to the `timeout_error` result; any other error would be
re-thrown, but `validateSingle` never rejects. -/
def validateWithTimeout (ev : EvalFn) (dv : DerivFn) (timedOut : Bool)
    (req : ValidationRequest) (_timeoutMs : Nat) : Except String ValidationResult :=
  match (if timedOut then .error "Timeout de validación"
         else .ok (validateSingle ev dv req) : Except String ValidationResult) with
  | .ok r => .ok r
  | .error e =>
      if e = "Timeout de validación" then
        .ok { ok := some false, title := "Timeout",
              msg := "La validación tomó demasiado tiempo", mtype := "timeout_error" }
      else .error e

/-- `quickValidate`: format check under a reduced timeout, all errors
swallowed to `false`. -/
def quickValidate (ev : EvalFn) (dv : DerivFn) (ty : String) (input : Str) : Bool :=
  match (do
      let sel ← SelectorFactory.createSelector ev dv ty { timeout := 1000 }
      sel.validate input : Except String ValidationResult) with
  | .ok r => r.ok == some true
  | .error _ => false

end ValidationService

/-! ## Auxiliary notions for the theorems -/

/-- Projection of a selector outcome to its `ok` field: `none` when the call
threw, `some ok` when it returned a result. -/
def okOf (x : Except String ValidationResult) : Option (Option Bool) :=
  match x with
  | .ok r => some r.ok
  | .error _ => none

/-- The Unicode characters rewritten by `applyMathematicalNormalizations`. -/
def specialChars : List Char :=
  ['∞', '×', '÷', 'π', '√', '∪', '∩', '∈', '∉', '⊂', '⊆']

/-- The lowercase ASCII letters (the image of the case fold on letters). -/
def lowerLetters : List Char :=
  ['a', 'b', 'c', 'd', 'e', 'f', 'g', 'h', 'i', 'j', 'k', 'l', 'm',
   'n', 'o', 'p', 'q', 'r', 's', 't', 'u', 'v', 'w', 'x', 'y', 'z']

/-- Conditions under which `replaceAll p r` leaves no occurrence of `p`
behind: `p` does not occur in `r`, no nonempty proper prefix of `p` is a
suffix of `r`, and no nonempty proper tail of `p` interacts with `r` as a
prefix in either direction.  Decidable, checked by `decide` per rule. -/
def KillsOK (p r : Str) : Prop :=
  hasSub p r = false ∧
  (∀ k, k < p.length → 0 < k → isSuffixOfB (p.take k) r = false) ∧
  (∀ k, k < p.length → 0 < k →
    ((p.drop k).isPrefixOf r = true → (p.drop k).isPrefixOf p = true)) ∧
  (∀ k, k < p.length → 0 < k → r.isPrefixOf (p.drop k) = false)

/-- Conditions under which `replaceAll p r` cannot create a new occurrence of
the pattern `q`: `q` does not occur in `r`, any nonempty proper prefix of `q`
that is a suffix of `r` is also a suffix of `p` (so the purported new
occurrence already existed across the replaced match), and no nonempty proper
tail of `q` interacts with `r` as a prefix in either direction. -/
def NoCreateOK (p r q : Str) : Prop :=
  hasSub q r = false ∧
  (∀ k, k < q.length → 0 < k →
    (isSuffixOfB (q.take k) r = true → isSuffixOfB (q.take k) p = true)) ∧
  (∀ k, k < q.length → 0 < k →
    ((q.drop k).isPrefixOf r = true → (q.drop k).isPrefixOf p = true)) ∧
  (∀ k, k < q.length → 0 < k → r.isPrefixOf (q.drop k) = false)

/-- Every whitespace character of `s` is a plain space. -/
def wsOnlySpace (s : Str) : Prop := ∀ c ∈ s, isWsChar c = true → c = ' '

/-- No two adjacent spaces. -/
def noDblSpace (s : Str) : Prop := hasSub [' ', ' '] s = false

/-- The first character, if any, is not whitespace. -/
def nonwsHead (s : Str) : Prop := ∀ c, s.head? = some c → isWsChar c = false

/-- The last character, if any, is not whitespace. -/
def nonwsLast (s : Str) : Prop := ∀ c, s.getLast? = some c → isWsChar c = false

/-- The residue of the substitution chain on inputs free of the special
characters: only the `infty` and the three inverse-trig rules can fire. -/
def mathCore (z : Str) : Str :=
  replaceAll "arctan".data "atan".data
    (replaceAll "arccos".data "acos".data
      (replaceAll "arcsin".data "asin".data
        (replaceAll "infty".data "1e309".data z)))

end Matuc

namespace Matuc

/-! ## Basic lemmas: prefixes, substrings, suffixes -/

theorem ipo_iff : ∀ (p s : Str), p.isPrefixOf s = true ↔ ∃ t, s = p ++ t
  | [], s => by simp [List.isPrefixOf]
  | _ :: _, [] => by simp [List.isPrefixOf]
  | a :: as, b :: bs => by
      simp only [List.isPrefixOf, Bool.and_eq_true, beq_iff_eq]
      constructor
      · rintro ⟨rfl, h⟩
        obtain ⟨t, rfl⟩ := (ipo_iff as bs).1 h
        exact ⟨t, rfl⟩
      · rintro ⟨t, h⟩
        rw [List.cons_append] at h
        injection h with h1 h2
        exact ⟨h1.symm, (ipo_iff as bs).2 ⟨t, h2⟩⟩

theorem ipo_refl (p : Str) : p.isPrefixOf p = true :=
  (ipo_iff p p).2 ⟨[], by simp⟩

theorem ipo_nil (s : Str) : ([] : Str).isPrefixOf s = true :=
  (ipo_iff [] s).2 ⟨s, rfl⟩

theorem ipo_of_nil {p : Str} (h : p.isPrefixOf ([] : Str) = true) : p = [] := by
  obtain ⟨t, ht⟩ := (ipo_iff p []).1 h
  exact (List.append_eq_nil.1 ht.symm).1

theorem ipo_trans {a b c : Str} (h₁ : a.isPrefixOf b = true)
    (h₂ : b.isPrefixOf c = true) : a.isPrefixOf c = true := by
  obtain ⟨t₁, rfl⟩ := (ipo_iff a b).1 h₁
  obtain ⟨t₂, rfl⟩ := (ipo_iff _ c).1 h₂
  exact (ipo_iff a _).2 ⟨t₁ ++ t₂, by simp⟩

theorem ipo_length {p s : Str} (h : p.isPrefixOf s = true) :
    p.length ≤ s.length := by
  obtain ⟨t, rfl⟩ := (ipo_iff p s).1 h
  simp

theorem ipo_append_left {p u : Str} (v : Str) (h : p.isPrefixOf u = true) :
    p.isPrefixOf (u ++ v) = true := by
  obtain ⟨t, rfl⟩ := (ipo_iff p u).1 h
  exact (ipo_iff p _).2 ⟨t ++ v, by simp⟩

theorem ipo_take {p s : Str} (h : p.isPrefixOf s = true) :
    s.take p.length = p := by
  obtain ⟨t, rfl⟩ := (ipo_iff p s).1 h
  simp

theorem ipo_self_append {p s : Str} (h : p.isPrefixOf s = true) :
    s = p ++ s.drop p.length := by
  conv_lhs => rw [← List.take_append_drop p.length s, ipo_take h]

theorem ipo_of_take {p s : Str} (h : s.take p.length = p) :
    p.isPrefixOf s = true :=
  (ipo_iff p s).2 ⟨s.drop p.length, by conv_lhs => rw [← List.take_append_drop p.length s, h]⟩

theorem ipo_of_append_le {m u v : Str} (h : m.isPrefixOf (u ++ v) = true)
    (hl : m.length ≤ u.length) : m.isPrefixOf u = true := by
  apply ipo_of_take
  have := ipo_take h
  rwa [List.take_append_of_le_length hl] at this

theorem ipo_of_append_gt {m u v : Str} (h : m.isPrefixOf (u ++ v) = true)
    (hl : u.length ≤ m.length) : u.isPrefixOf m = true := by
  obtain ⟨t, ht⟩ := (ipo_iff m _).1 h
  apply ipo_of_take
  have : (u ++ v).take u.length = u := by simp
  rw [ht] at this
  rwa [List.take_append_of_le_length hl] at this

theorem ipo_cons {c d : Char} {q s : Str} :
    (c :: q).isPrefixOf (d :: s) = true ↔ c = d ∧ q.isPrefixOf s = true := by
  simp [List.isPrefixOf]

theorem hasSub_cons (q : Str) (c : Char) (t : Str) :
    hasSub q (c :: t) = (q.isPrefixOf (c :: t) || hasSub q t) := rfl

theorem hasSub_iff : ∀ (q s : Str), hasSub q s = true ↔ ∃ u v, s = u ++ q ++ v
  | q, [] => by
      constructor
      · intro h
        cases q with
        | nil => exact ⟨[], [], rfl⟩
        | cons a as => simp [hasSub, List.isEmpty] at h
      · rintro ⟨u, v, huv⟩
        have huv' : u ++ (q ++ v) = [] := by simpa [List.append_assoc] using huv.symm
        have h1 := List.append_eq_nil.1 huv'
        have h2 := List.append_eq_nil.1 h1.2
        simp [hasSub, h2.1, List.isEmpty]
  | q, c :: t => by
      rw [hasSub_cons]
      simp only [Bool.or_eq_true]
      constructor
      · rintro (h | h)
        · obtain ⟨w, hw⟩ := (ipo_iff q _).1 h
          exact ⟨[], w, by simp [hw]⟩
        · obtain ⟨u, v, huv⟩ := (hasSub_iff q t).1 h
          exact ⟨c :: u, v, by simp [huv]⟩
      · rintro ⟨u, v, huv⟩
        cases u with
        | nil =>
            left
            exact (ipo_iff q _).2 ⟨v, by simpa using huv⟩
        | cons a u' =>
            right
            rw [List.cons_append, List.cons_append] at huv
            injection huv with _ h2
            exact (hasSub_iff q t).2 ⟨u', v, h2⟩

theorem hasSub_of_ipo {q s : Str} (h : q.isPrefixOf s = true) :
    hasSub q s = true := by
  obtain ⟨t, rfl⟩ := (ipo_iff q s).1 h
  exact (hasSub_iff q _).2 ⟨[], t, by simp⟩

theorem hasSub_append_right {q v : Str} (u : Str) (h : hasSub q v = true) :
    hasSub q (u ++ v) = true := by
  obtain ⟨a, b, rfl⟩ := (hasSub_iff q v).1 h
  exact (hasSub_iff q _).2 ⟨u ++ a, b, by simp⟩

theorem hasSub_append_left {q u : Str} (v : Str) (h : hasSub q u = true) :
    hasSub q (u ++ v) = true := by
  obtain ⟨a, b, rfl⟩ := (hasSub_iff q u).1 h
  exact (hasSub_iff q _).2 ⟨a, b ++ v, by simp⟩

theorem hasSub_drop {q s : Str} (j : Nat) (h : hasSub q (s.drop j) = true) :
    hasSub q s = true := by
  have := hasSub_append_right (s.take j) h
  rwa [List.take_append_drop] at this

theorem hasSub_of_cons {q : Str} {c : Char} {t : Str}
    (h : hasSub q (c :: t) = false) :
    q.isPrefixOf (c :: t) = false ∧ hasSub q t = false := by
  rw [hasSub_cons] at h
  exact ⟨(Bool.or_eq_false_iff.1 h).1, (Bool.or_eq_false_iff.1 h).2⟩

theorem hasSub_single_iff_mem (u : Char) (s : Str) :
    hasSub [u] s = true ↔ u ∈ s := by
  rw [hasSub_iff]
  constructor
  · rintro ⟨a, b, rfl⟩
    simp
  · intro h
    obtain ⟨a, b, rfl⟩ := List.append_of_mem h
    exact ⟨a, b, by simp⟩

theorem sfx_iff (v r : Str) : isSuffixOfB v r = true ↔ ∃ u, r = u ++ v := by
  unfold isSuffixOfB
  rw [ipo_iff]
  constructor
  · rintro ⟨t, ht⟩
    refine ⟨t.reverse, ?_⟩
    have := congrArg List.reverse ht
    simpa using this
  · rintro ⟨u, rfl⟩
    exact ⟨u.reverse, by simp⟩

theorem sfx_refl (u : Str) : isSuffixOfB u u = true :=
  (sfx_iff u u).2 ⟨[], rfl⟩

theorem sfx_cons {w u : Str} (a : Char) (h : isSuffixOfB w u = true) :
    isSuffixOfB w (a :: u) = true := by
  obtain ⟨x, rfl⟩ := (sfx_iff w u).1 h
  exact (sfx_iff w _).2 ⟨a :: x, rfl⟩

theorem ipo_cancel {u m v : Str} (h : (u ++ m).isPrefixOf (u ++ v) = true) :
    m.isPrefixOf v = true := by
  obtain ⟨t, ht⟩ := (ipo_iff _ _).1 h
  rw [List.append_assoc] at ht
  exact (ipo_iff m v).2 ⟨t, List.append_cancel_left ht⟩

/-! ## Lemmas about `replaceAll` -/

theorem replaceAllF_fuel {p r : Str} : ∀ n m s, s.length ≤ n → s.length ≤ m →
    replaceAllF p r n s = replaceAllF p r m s := by
  intro n
  induction n with
  | zero =>
      intro m s hs _
      have : s = [] := List.eq_nil_of_length_eq_zero (Nat.le_zero.1 hs)
      subst this
      cases m <;> rfl
  | succ n ih =>
      intro m s hs hm
      cases s with
      | nil => cases m <;> rfl
      | cons c t =>
          cases m with
          | zero => simp at hm
          | succ m' =>
              show replaceAllF p r (n + 1) (c :: t) = replaceAllF p r (m' + 1) (c :: t)
              simp only [replaceAllF]
              have hlt : t.length ≤ n := by simpa using hs
              have hlt' : t.length ≤ m' := by simpa using hm
              have hdrop : (t.drop (p.length - 1)).length ≤ t.length := by
                simp only [List.length_drop]
                omega
              by_cases hcond : (p.isPrefixOf (c :: t) && !p.isEmpty) = true
              · rw [if_pos hcond, if_pos hcond]
                congr 1
                exact ih m' _ (le_trans hdrop hlt) (le_trans hdrop hlt')
              · rw [if_neg hcond, if_neg hcond]
                congr 1
                exact ih m' t hlt hlt'

theorem replaceAll_nil (p r : Str) : replaceAll p r [] = [] := rfl

theorem replaceAll_cons_pos {p : Str} (r : Str) {c : Char} {t : Str}
    (h : p.isPrefixOf (c :: t) = true) (hp : p ≠ []) :
    replaceAll p r (c :: t) = r ++ replaceAll p r (t.drop (p.length - 1)) := by
  have hcond : (p.isPrefixOf (c :: t) && !p.isEmpty) = true := by
    cases p with
    | nil => exact absurd rfl hp
    | cons a as => simp [h]
  show replaceAllF p r (t.length + 1) (c :: t) = _
  simp only [replaceAllF]
  rw [if_pos hcond]
  congr 1
  apply replaceAllF_fuel
  · simp only [List.length_drop]; omega
  · exact le_refl _

theorem replaceAll_cons_neg {p r : Str} {c : Char} {t : Str}
    (h : (p.isPrefixOf (c :: t) && !p.isEmpty) = false) :
    replaceAll p r (c :: t) = c :: replaceAll p r t := by
  show replaceAllF p r (t.length + 1) (c :: t) = _
  simp only [replaceAllF]
  rw [if_neg (by simp [h])]
  rfl

theorem repl_ne_nil {p r s : Str} (hs : s ≠ []) (hr : r ≠ []) :
    replaceAll p r s ≠ [] := by
  cases s with
  | nil => exact absurd rfl hs
  | cons c t =>
      by_cases hcond : (p.isPrefixOf (c :: t) && !p.isEmpty) = true
      · obtain ⟨hpp, h2⟩ : p.isPrefixOf (c :: t) = true ∧ (!p.isEmpty) = true := by
          simpa using hcond
        have hp : p ≠ [] := by
          cases p with
          | nil => simp [List.isEmpty] at h2
          | cons _ _ => simp
        rw [replaceAll_cons_pos r hpp hp]
        simp [hr]
      · rw [replaceAll_cons_neg (Bool.eq_false_iff.2 hcond)]
        simp

theorem mem_replaceAll {p r : Str} : ∀ n s, s.length ≤ n →
    ∀ a ∈ replaceAll p r s, a ∈ s ∨ a ∈ r := by
  intro n
  induction n with
  | zero =>
      intro s hs a ha
      have : s = [] := List.eq_nil_of_length_eq_zero (Nat.le_zero.1 hs)
      subst this
      simp [replaceAll_nil] at ha
  | succ n ih =>
      intro s hs a ha
      cases s with
      | nil => simp [replaceAll_nil] at ha
      | cons c t =>
          by_cases hcond : (p.isPrefixOf (c :: t) && !p.isEmpty) = true
          · obtain ⟨hpp, h2⟩ : p.isPrefixOf (c :: t) = true ∧ (!p.isEmpty) = true := by
              simpa using hcond
            have hp : p ≠ [] := by
              cases p with
              | nil => simp [List.isEmpty] at h2
              | cons _ _ => simp
            rw [replaceAll_cons_pos r hpp hp] at ha
            rcases List.mem_append.1 ha with h | h
            · exact Or.inr h
            · have hlen : (t.drop (p.length - 1)).length ≤ n := by
                simp only [List.length_drop]
                have : t.length ≤ n := by simpa using hs
                omega
              rcases ih _ hlen a h with h' | h'
              · exact Or.inl (List.mem_cons_of_mem c (List.mem_of_mem_drop h'))
              · exact Or.inr h'
          · rw [replaceAll_cons_neg (Bool.eq_false_iff.2 hcond)] at ha
            rcases List.mem_cons.1 ha with h | h
            · exact Or.inl (h ▸ List.mem_cons_self c t)
            · have : t.length ≤ n := by simpa using hs
              rcases ih t this a h with h' | h'
              · exact Or.inl (List.mem_cons_of_mem c h')
              · exact Or.inr h'

theorem repl_id {p r : Str} : ∀ n s, s.length ≤ n → hasSub p s = false →
    replaceAll p r s = s := by
  intro n
  induction n with
  | zero =>
      intro s hs _
      have : s = [] := List.eq_nil_of_length_eq_zero (Nat.le_zero.1 hs)
      subst this
      rfl
  | succ n ih =>
      intro s hs habs
      cases s with
      | nil => rfl
      | cons c t =>
          obtain ⟨h1, h2⟩ := hasSub_of_cons habs
          rw [replaceAll_cons_neg (by simp [h1])]
          have : t.length ≤ n := by simpa using hs
          rw [ih t this h2]

/-- Decomposition of an occurrence of `q` in `u ++ v`: inside `u`, inside
`v`, or straddling the boundary (a nonempty proper prefix of `q` is a suffix
of `u` and the matching tail of `q` is a prefix of `v`). -/
theorem hasSub_append_decomp : ∀ (u v q : Str), hasSub q (u ++ v) = true →
    hasSub q u = true ∨ hasSub q v = true ∨
      ∃ k, 0 < k ∧ k < q.length ∧ isSuffixOfB (q.take k) u = true ∧
        (q.drop k).isPrefixOf v = true
  | [], v, q, h => by
      right; left
      simpa using h
  | a :: u', v, q, h => by
      rw [List.cons_append, hasSub_cons] at h
      rcases (by simpa using h :
        q.isPrefixOf (a :: (u' ++ v)) = true ∨ hasSub q (u' ++ v) = true) with h1 | h1
      · by_cases hl : q.length ≤ (a :: u').length
        · left
          exact hasSub_of_ipo (ipo_of_append_le (by simpa using h1) hl)
        · have hl' : (a :: u').length ≤ q.length := le_of_not_le hl
          have hgt := ipo_of_append_gt (by simpa using h1) hl'
          right; right
          refine ⟨(a :: u').length, by simp, by omega, ?_, ?_⟩
          · rw [ipo_take hgt]
            exact sfx_refl _
          · have hq : q = (a :: u') ++ q.drop (a :: u').length := ipo_self_append hgt
            have : ((a :: u') ++ q.drop (a :: u').length).isPrefixOf ((a :: u') ++ v) = true := by
              rw [← hq]; simpa using h1
            exact ipo_cancel this
      · rcases hasSub_append_decomp u' v q h1 with h2 | h2 | ⟨k, hk1, hk2, hk3, hk4⟩
        · left
          rw [hasSub_cons, h2]
          simp
        · right; left; exact h2
        · right; right
          exact ⟨k, hk1, hk2, sfx_cons a hk3, hk4⟩

theorem hasSub_nil_eq (q : Str) : hasSub q [] = q.isEmpty := rfl

theorem hasSub_nil_of_ne {q : Str} (hq : q ≠ []) : hasSub q [] = false := by
  rw [hasSub_nil_eq]
  cases q with
  | nil => exact absurd rfl hq
  | cons _ _ => rfl

/-- Prefix transfer: under the interaction conditions, a tail of `q` that is
a prefix of `replaceAll p r t` was already a prefix of `t`. -/
theorem replB (p r q : Str) (_hr : r ≠ [])
    (Ha : ∀ k, k < q.length → 0 < k →
      ((q.drop k).isPrefixOf r = true → (q.drop k).isPrefixOf p = true))
    (Hb : ∀ k, k < q.length → 0 < k → r.isPrefixOf (q.drop k) = false) :
    ∀ n t, t.length ≤ n → ∀ k, 0 < k →
      (q.drop k).isPrefixOf (replaceAll p r t) = true →
      (q.drop k).isPrefixOf t = true := by
  intro n
  induction n with
  | zero =>
      intro t ht k _ hpre
      have : t = [] := List.eq_nil_of_length_eq_zero (Nat.le_zero.1 ht)
      subst this
      rw [replaceAll_nil] at hpre
      rw [ipo_of_nil hpre]
      exact ipo_nil []
  | succ n ih =>
      intro t ht k hk hpre
      cases t with
      | nil =>
          rw [replaceAll_nil] at hpre
          rw [ipo_of_nil hpre]
          exact ipo_nil []
      | cons c u =>
          by_cases hm : q.drop k = []
          · rw [hm]; exact ipo_nil _
          have hklen : k < q.length := by
            by_contra h'
            exact hm (List.drop_eq_nil_of_le (le_of_not_lt h'))
          by_cases hcond : (p.isPrefixOf (c :: u) && !p.isEmpty) = true
          · obtain ⟨hpp, h2⟩ : p.isPrefixOf (c :: u) = true ∧ (!p.isEmpty) = true := by
              simpa using hcond
            have hp : p ≠ [] := by
              cases p with
              | nil => simp [List.isEmpty] at h2
              | cons _ _ => simp
            rw [replaceAll_cons_pos r hpp hp] at hpre
            by_cases hlen : (q.drop k).length ≤ r.length
            · exact ipo_trans (Ha k hklen hk (ipo_of_append_le hpre hlen)) hpp
            · have h5 := ipo_of_append_gt hpre (le_of_not_le hlen)
              rw [Hb k hklen hk] at h5
              cases h5
          · rw [replaceAll_cons_neg (Bool.eq_false_iff.2 hcond)] at hpre
            cases hmm : q.drop k with
            | nil => exact absurd hmm hm
            | cons d m' =>
                rw [hmm] at hpre
                obtain ⟨hdc, hpre'⟩ := ipo_cons.1 hpre
                have hm' : m' = q.drop (k + 1) := by
                  have h6 : (q.drop k).drop 1 = q.drop (k + 1) := List.drop_drop 1 k q
                  rw [hmm] at h6
                  simpa using h6
                have h7 := ih u (by simpa using ht) (k + 1) (by omega) (by rw [← hm']; exact hpre')
                exact ipo_cons.2 ⟨hdc, by rw [hm']; exact h7⟩

/-- After `replaceAll p r`, the pattern `p` no longer occurs (under the
`KillsOK` interaction conditions). -/
theorem replKills {p r : Str} (hp : p ≠ []) (hr : r ≠ []) (hK : KillsOK p r) :
    ∀ n s, s.length ≤ n → hasSub p (replaceAll p r s) = false := by
  obtain ⟨K1, K2, Ha, Hb⟩ := hK
  intro n
  induction n with
  | zero =>
      intro s hs
      have : s = [] := List.eq_nil_of_length_eq_zero (Nat.le_zero.1 hs)
      subst this
      rw [replaceAll_nil]
      exact hasSub_nil_of_ne hp
  | succ n ih =>
      intro s hs
      cases s with
      | nil =>
          rw [replaceAll_nil]
          exact hasSub_nil_of_ne hp
      | cons c u =>
          by_cases hcond : (p.isPrefixOf (c :: u) && !p.isEmpty) = true
          · obtain ⟨hpp, h2⟩ : p.isPrefixOf (c :: u) = true ∧ (!p.isEmpty) = true := by
              simpa using hcond
            rw [replaceAll_cons_pos r hpp hp]
            by_contra hcontra
            rw [Bool.not_eq_false] at hcontra
            rcases hasSub_append_decomp r _ p hcontra with h1 | h1 | ⟨k, hk1, hk2, hk3, _⟩
            · rw [K1] at h1; cases h1
            · have hlen : (u.drop (p.length - 1)).length ≤ n := by
                simp only [List.length_drop]
                have : u.length ≤ n := by simpa using hs
                omega
              rw [ih _ hlen] at h1
              cases h1
            · rw [K2 k hk2 hk1] at hk3
              cases hk3
          · rw [replaceAll_cons_neg (Bool.eq_false_iff.2 hcond)]
            rw [hasSub_cons]
            have hu : u.length ≤ n := by simpa using hs
            apply Bool.or_eq_false_iff.2
            refine ⟨?_, ih u hu⟩
            by_contra hcontra
            rw [Bool.not_eq_false] at hcontra
            obtain ⟨a, p', hpcase⟩ : ∃ a p', p = a :: p' := by
              cases p with
              | nil => exact absurd rfl hp
              | cons a p' => exact ⟨a, p', rfl⟩
            rw [hpcase] at hcontra
            obtain ⟨hac, hpre'⟩ := ipo_cons.1 hcontra
            rw [← hpcase] at hpre'
            have hp' : p' = p.drop 1 := by simp [hpcase]
            have h7 := replB p r p hr Ha Hb n u hu 1 (by omega)
              (by rw [← hp']; exact hpre')
            have h8 : p.isPrefixOf (c :: u) = true := by
              conv_lhs => rw [hpcase]
              exact ipo_cons.2 ⟨hac, by rw [hp']; exact h7⟩
            have : (p.isPrefixOf (c :: u) && !p.isEmpty) = true := by
              rw [h8, hpcase]
              simp
            exact hcond this

/-- `replaceAll p r` cannot create a new occurrence of `q` (under the
`NoCreateOK` interaction conditions). -/
theorem replNoCreate {p r q : Str} (hp : p ≠ []) (hr : r ≠ []) (hq : q ≠ [])
    (hN : NoCreateOK p r q) :
    ∀ n s, s.length ≤ n → hasSub q s = false →
      hasSub q (replaceAll p r s) = false := by
  obtain ⟨E1, E2, Ha, Hb⟩ := hN
  intro n
  induction n with
  | zero =>
      intro s hs _
      have : s = [] := List.eq_nil_of_length_eq_zero (Nat.le_zero.1 hs)
      subst this
      rw [replaceAll_nil]
      exact hasSub_nil_of_ne hq
  | succ n ih =>
      intro s hs habs
      cases s with
      | nil =>
          rw [replaceAll_nil]
          exact hasSub_nil_of_ne hq
      | cons c u =>
          obtain ⟨hs1, hs2⟩ := hasSub_of_cons habs
          have hu : u.length ≤ n := by simpa using hs
          by_cases hcond : (p.isPrefixOf (c :: u) && !p.isEmpty) = true
          · obtain ⟨hpp, h2⟩ : p.isPrefixOf (c :: u) = true ∧ (!p.isEmpty) = true := by
              simpa using hcond
            have hpne : p ≠ [] := by
              cases p with
              | nil => simp [List.isEmpty] at h2
              | cons _ _ => simp
            have hrest_eq : (c :: u).drop p.length = u.drop (p.length - 1) := by
              cases p with
              | nil => exact absurd rfl hpne
              | cons a as => simp
            have hrest : hasSub q (u.drop (p.length - 1)) = false := by
              by_contra h'
              rw [Bool.not_eq_false] at h'
              have h9 := hasSub_drop (s := c :: u) p.length (by rw [hrest_eq]; exact h')
              rw [habs] at h9
              cases h9
            rw [replaceAll_cons_pos r hpp hpne]
            by_contra hcontra
            rw [Bool.not_eq_false] at hcontra
            rcases hasSub_append_decomp r _ q hcontra with h1 | h1 | ⟨k, hk1, hk2, hk3, hk4⟩
            · rw [E1] at h1; cases h1
            · have hlen : (u.drop (p.length - 1)).length ≤ n := by
                simp only [List.length_drop]
                omega
              rw [ih _ hlen hrest] at h1
              cases h1
            · obtain ⟨u₀, hu₀⟩ := (sfx_iff _ _).1 (E2 k hk2 hk1 hk3)
              have h10 := replB p r q hr Ha Hb n _
                (by simp only [List.length_drop]; omega) k hk1 hk4
              obtain ⟨w, hw⟩ := (ipo_iff _ _).1 h10
              have hocc : hasSub q (c :: u) = true := by
                apply (hasSub_iff q _).2
                refine ⟨u₀, w, ?_⟩
                have hsplit : (c :: u) = p ++ (c :: u).drop p.length :=
                  ipo_self_append hpp
                rw [hsplit, hrest_eq, hw, hu₀]
                simp only [List.append_assoc, List.append_cancel_left_eq]
                rw [← List.append_assoc, List.take_append_drop]
              rw [habs] at hocc
              cases hocc
          · rw [replaceAll_cons_neg (Bool.eq_false_iff.2 hcond)]
            rw [hasSub_cons]
            apply Bool.or_eq_false_iff.2
            refine ⟨?_, ih u hu hs2⟩
            by_contra hcontra
            rw [Bool.not_eq_false] at hcontra
            obtain ⟨a, q', hqcase⟩ : ∃ a q', q = a :: q' := by
              cases q with
              | nil => exact absurd rfl hq
              | cons a q' => exact ⟨a, q', rfl⟩
            rw [hqcase] at hcontra
            obtain ⟨hac, hpre'⟩ := ipo_cons.1 hcontra
            have hq' : q' = q.drop 1 := by simp [hqcase]
            have h7 := replB p r q hr Ha Hb n u hu 1 (by omega)
              (by rw [← hq']; exact hpre')
            have h8 : q.isPrefixOf (c :: u) = true := by
              conv_lhs => rw [hqcase]
              exact ipo_cons.2 ⟨hac, by rw [hq']; exact h7⟩
            rw [hs1] at h8
            cases h8

/-! ## Head/last preservation through `replaceAll` -/

theorem repl_head {p r : Str} (hr : r ≠ []) (s : Str) :
    (replaceAll p r s).head? = s.head? ∨ (replaceAll p r s).head? = r.head? := by
  cases s with
  | nil => left; rfl
  | cons c t =>
      by_cases hcond : (p.isPrefixOf (c :: t) && !p.isEmpty) = true
      · obtain ⟨hpp, h2⟩ : p.isPrefixOf (c :: t) = true ∧ (!p.isEmpty) = true := by
          simpa using hcond
        have hp : p ≠ [] := by
          cases p with
          | nil => simp [List.isEmpty] at h2
          | cons _ _ => simp
        rw [replaceAll_cons_pos r hpp hp]
        right
        cases r with
        | nil => exact absurd rfl hr
        | cons b r' => rfl
      · rw [replaceAll_cons_neg (Bool.eq_false_iff.2 hcond)]
        left; rfl

theorem glast_cons_ne {c : Char} {t : Str} (ht : t ≠ []) :
    (c :: t).getLast? = t.getLast? := by
  cases t with
  | nil => exact absurd rfl ht
  | cons d t' => exact List.getLast?_cons_cons

theorem glast_append {zs : Str} (ys : Str) (hz : zs ≠ []) :
    (ys ++ zs).getLast? = zs.getLast? := by
  induction ys with
  | nil => rfl
  | cons a ys ih =>
      rw [List.cons_append, glast_cons_ne, ih]
      intro h
      rcases List.append_eq_nil.1 h with ⟨-, h2⟩
      exact hz h2

theorem glast_drop {t : Str} {j : Nat} (h : t.drop j ≠ []) :
    (t.drop j).getLast? = t.getLast? := by
  conv_rhs => rw [← List.take_append_drop j t]
  rw [glast_append _ h]

theorem repl_last {p r : Str} (hr : r ≠ []) : ∀ n s, s.length ≤ n →
    (replaceAll p r s).getLast? = s.getLast? ∨
      (replaceAll p r s).getLast? = r.getLast? := by
  intro n
  induction n with
  | zero =>
      intro s hs
      have : s = [] := List.eq_nil_of_length_eq_zero (Nat.le_zero.1 hs)
      subst this
      left; rfl
  | succ n ih =>
      intro s hs
      cases s with
      | nil => left; rfl
      | cons c u =>
          have hu : u.length ≤ n := by simpa using hs
          by_cases hcond : (p.isPrefixOf (c :: u) && !p.isEmpty) = true
          · obtain ⟨hpp, h2⟩ : p.isPrefixOf (c :: u) = true ∧ (!p.isEmpty) = true := by
              simpa using hcond
            have hp : p ≠ [] := by
              cases p with
              | nil => simp [List.isEmpty] at h2
              | cons _ _ => simp
            rw [replaceAll_cons_pos r hpp hp]
            by_cases hrest : u.drop (p.length - 1) = []
            · rw [hrest, replaceAll_nil, List.append_nil]
              right; rfl
            · have hZ : replaceAll p r (u.drop (p.length - 1)) ≠ [] :=
                repl_ne_nil hrest hr
              rw [glast_append r hZ]
              have hlen : (u.drop (p.length - 1)).length ≤ n := by
                simp only [List.length_drop]
                omega
              rcases ih _ hlen with h | h
              · left
                rw [h, glast_drop hrest, glast_cons_ne]
                intro h'
                subst h'
                simp at hrest
              · right; exact h
          · rw [replaceAll_cons_neg (Bool.eq_false_iff.2 hcond)]
            by_cases hu0 : u = []
            · subst hu0
              left; rfl
            · have hR : replaceAll p r u ≠ [] := repl_ne_nil hu0 hr
              rw [glast_cons_ne hR]
              rcases ih u hu with h | h
              · left
                rw [h, glast_cons_ne hu0]
              · right; exact h

theorem repl_nonwsHead {p r s : Str} (hr : r ≠ []) (hs : nonwsHead s)
    (hrh : nonwsHead r) : nonwsHead (replaceAll p r s) := by
  intro c hc
  rcases repl_head (p := p) hr s with h | h
  · rw [h] at hc; exact hs c hc
  · rw [h] at hc; exact hrh c hc

theorem repl_nonwsLast {p r s : Str} (hr : r ≠ []) (hs : nonwsLast s)
    (hrl : nonwsLast r) : nonwsLast (replaceAll p r s) := by
  intro c hc
  rcases repl_last (p := p) hr s.length s (le_refl _) with h | h
  · rw [h] at hc; exact hs c hc
  · rw [h] at hc; exact hrl c hc

/-! ## Lemmas about whitespace collapsing and trimming -/

theorem collapse_mem : ∀ (s : Str) (b : Bool), ∀ c ∈ collapseGo b s, c ∈ s ∨ c = ' '
  | [], b => by simp [collapseGo]
  | d :: t, b => by
      intro c hc
      by_cases hw : isWsChar d = true
      · cases b with
        | false =>
            simp only [collapseGo, hw, if_true, if_false] at hc
            rcases List.mem_cons.1 hc with h | h
            · exact Or.inr h
            · rcases collapse_mem t true c h with h' | h'
              · exact Or.inl (List.mem_cons_of_mem d h')
              · exact Or.inr h'
        | true =>
            simp only [collapseGo, hw, if_true] at hc
            rcases collapse_mem t true c hc with h' | h'
            · exact Or.inl (List.mem_cons_of_mem d h')
            · exact Or.inr h'
      · simp only [collapseGo, hw, if_false, Bool.false_eq_true] at hc
        rcases List.mem_cons.1 hc with h | h
        · exact Or.inl (h ▸ List.mem_cons_self d t)
        · rcases collapse_mem t false c h with h' | h'
          · exact Or.inl (List.mem_cons_of_mem d h')
          · exact Or.inr h'

theorem collapseB : ∀ (t q' : Str), (∀ c ∈ q', isWsChar c = false) →
    q'.isPrefixOf (collapseGo false t) = true → q'.isPrefixOf t = true
  | [], q', _, h => by
      simpa [collapseGo] using h
  | e :: t', q', hq', h => by
      by_cases hw : isWsChar e = true
      · simp only [collapseGo, hw, if_true] at h
        cases q' with
        | nil => exact ipo_nil _
        | cons a q'' =>
            obtain ⟨ha, -⟩ := ipo_cons.1 h
            have := hq' a (List.mem_cons_self a q'')
            rw [ha] at this
            simp [isWsChar] at this
      · simp only [collapseGo, hw, if_false, Bool.false_eq_true] at h
        cases q' with
        | nil => exact ipo_nil _
        | cons a q'' =>
            obtain ⟨ha, h2⟩ := ipo_cons.1 h
            have h3 := collapseB t' q''
              (fun c hc => hq' c (List.mem_cons_of_mem a hc)) h2
            exact ipo_cons.2 ⟨ha, h3⟩

theorem collapse_no_create {q : Str} (hq : q ≠ [])
    (hqw : ∀ c ∈ q, isWsChar c = false) :
    ∀ (s : Str) (b : Bool), hasSub q s = false → hasSub q (collapseGo b s) = false
  | [], b, _ => by
      simpa [collapseGo] using hasSub_nil_of_ne hq
  | c :: t, b, habs => by
      obtain ⟨h1, h2⟩ := hasSub_of_cons habs
      by_cases hw : isWsChar c = true
      · cases b with
        | true =>
            simp only [collapseGo, hw, if_true]
            exact collapse_no_create hq hqw t true h2
        | false =>
            simp only [collapseGo, hw, if_true, Bool.false_eq_true, if_false]
            rw [hasSub_cons]
            apply Bool.or_eq_false_iff.2
            refine ⟨?_, collapse_no_create hq hqw t true h2⟩
            cases q with
            | nil => exact absurd rfl hq
            | cons a q' =>
                by_contra hcontra
                rw [Bool.not_eq_false] at hcontra
                obtain ⟨ha, -⟩ := ipo_cons.1 hcontra
                have := hqw a (List.mem_cons_self a q')
                rw [ha] at this
                simp [isWsChar] at this
      · simp only [collapseGo, hw, if_false, Bool.false_eq_true]
        rw [hasSub_cons]
        apply Bool.or_eq_false_iff.2
        refine ⟨?_, collapse_no_create hq hqw t false h2⟩
        cases q with
        | nil => exact absurd rfl hq
        | cons a q' =>
            by_contra hcontra
            rw [Bool.not_eq_false] at hcontra
            obtain ⟨ha, hpre'⟩ := ipo_cons.1 hcontra
            have h3 := collapseB t q'
              (fun c' hc' => hqw c' (List.mem_cons_of_mem a hc')) hpre'
            have h4 : (a :: q').isPrefixOf (c :: t) = true := ipo_cons.2 ⟨ha, h3⟩
            rw [h1] at h4
            cases h4

theorem collapse_wsOnly : ∀ (s : Str) (b : Bool), wsOnlySpace (collapseGo b s)
  | [], b => by intro c hc; simp [collapseGo] at hc
  | c :: t, b => by
      intro c' hc' hwc'
      by_cases hw : isWsChar c = true
      · cases b with
        | true =>
            simp only [collapseGo, hw, if_true] at hc'
            exact collapse_wsOnly t true c' hc' hwc'
        | false =>
            simp only [collapseGo, hw, if_true, if_false] at hc'
            rcases List.mem_cons.1 hc' with h | h
            · exact h
            · exact collapse_wsOnly t true c' h hwc'
      · simp only [collapseGo, hw, if_false, Bool.false_eq_true] at hc'
        rcases List.mem_cons.1 hc' with h | h
        · rw [h] at hwc'
          rw [hwc'] at hw
          exact absurd rfl hw
        · exact collapse_wsOnly t false c' h hwc'

theorem collapse_headTrue : ∀ (t : Str), nonwsHead (collapseGo true t)
  | [] => by intro c hc; simp [collapseGo] at hc
  | e :: t' => by
      intro c hc
      by_cases hw : isWsChar e = true
      · simp only [collapseGo, hw, if_true] at hc
        exact collapse_headTrue t' c hc
      · simp only [collapseGo, hw, if_false, Bool.false_eq_true] at hc
        injection hc with hc
        rw [← hc]
        exact Bool.eq_false_iff.2 hw

theorem collapse_noDbl : ∀ (s : Str) (b : Bool), noDblSpace (collapseGo b s)
  | [], b => by
      unfold noDblSpace
      simpa [collapseGo] using hasSub_nil_of_ne (by simp : ([' ', ' '] : Str) ≠ [])
  | c :: t, b => by
      unfold noDblSpace
      by_cases hw : isWsChar c = true
      · cases b with
        | true =>
            simp only [collapseGo, hw, if_true]
            exact collapse_noDbl t true
        | false =>
            simp only [collapseGo, hw, if_true, Bool.false_eq_true, if_false]
            rw [hasSub_cons]
            apply Bool.or_eq_false_iff.2
            refine ⟨?_, collapse_noDbl t true⟩
            by_contra hcontra
            rw [Bool.not_eq_false] at hcontra
            obtain ⟨-, h2⟩ := ipo_cons.1 hcontra
            cases hX : collapseGo true t with
            | nil => rw [hX] at h2; cases (by simpa using ipo_of_nil h2 : False)
            | cons d X' =>
                rw [hX] at h2
                obtain ⟨hd, -⟩ := ipo_cons.1 h2
                have h3 := collapse_headTrue t d (by rw [hX]; rfl)
                rw [← hd] at h3
                simp [isWsChar] at h3
      · simp only [collapseGo, hw, if_false, Bool.false_eq_true]
        rw [hasSub_cons]
        apply Bool.or_eq_false_iff.2
        refine ⟨?_, collapse_noDbl t false⟩
        by_contra hcontra
        rw [Bool.not_eq_false] at hcontra
        obtain ⟨hc, -⟩ := ipo_cons.1 hcontra
        rw [← hc] at hw
        simp [isWsChar] at hw

theorem collapse_id : ∀ (s : Str), wsOnlySpace s → noDblSpace s →
    collapseGo false s = s
  | [], _, _ => rfl
  | c :: t, hws, hnd => by
      have hws' : wsOnlySpace t := fun c' hc' => hws c' (List.mem_cons_of_mem c hc')
      have hnd' : noDblSpace t := by
        unfold noDblSpace at hnd ⊢
        by_contra h'
        rw [Bool.not_eq_false] at h'
        have := hasSub_cons ([' ', ' '] : Str) c t
        rw [h', Bool.or_true] at this
        rw [this] at hnd
        cases hnd
      by_cases hw : isWsChar c = true
      · have hc : c = ' ' := hws c (List.mem_cons_self c t) hw
        simp only [collapseGo, hw, if_true, Bool.false_eq_true, if_false]
        rw [hc]
        congr 1
        cases t with
        | nil => rfl
        | cons d t' =>
            by_cases hwd : isWsChar d = true
            · exfalso
              have hd : d = ' ' := hws d (List.mem_cons_of_mem c (List.mem_cons_self d t')) hwd
              have : hasSub [' ', ' '] (c :: d :: t') = true := by
                apply hasSub_of_ipo
                rw [hc, hd]
                exact ipo_cons.2 ⟨rfl, ipo_cons.2 ⟨rfl, ipo_nil t'⟩⟩
              rw [hnd] at this
              cases this
            · have h5 := collapse_id (d :: t') hws' hnd'
              simp only [collapseGo, hwd, if_false, Bool.false_eq_true] at h5 ⊢
              exact h5
      · simp only [collapseGo, hw, if_false, Bool.false_eq_true]
        rw [collapse_id t hws' hnd']

/-! ## Lemmas about `dropWhile` and `jsTrim` -/

theorem dw_head : ∀ (s : Str) (c : Char),
    (s.dropWhile isWsChar).head? = some c → isWsChar c = false
  | [], c, h => by cases h
  | d :: t, c, h => by
      by_cases hw : isWsChar d = true
      · rw [List.dropWhile_cons, if_pos hw] at h
        exact dw_head t c h
      · rw [List.dropWhile_cons, if_neg hw] at h
        injection h with h
        rw [← h]
        exact Bool.eq_false_iff.2 hw

theorem dw_mem : ∀ {s : Str} {c : Char}, c ∈ s.dropWhile isWsChar → c ∈ s
  | [], _, h => h
  | d :: t, c, h => by
      by_cases hw : isWsChar d = true
      · rw [List.dropWhile_cons, if_pos hw] at h
        exact List.mem_cons_of_mem d (dw_mem h)
      · rwa [List.dropWhile_cons, if_neg hw] at h

theorem dw_drop : ∀ (s : Str), ∃ k, s.dropWhile isWsChar = s.drop k
  | [] => ⟨0, rfl⟩
  | d :: t => by
      by_cases hw : isWsChar d = true
      · obtain ⟨k, hk⟩ := dw_drop t
        exact ⟨k + 1, by rw [List.dropWhile_cons, if_pos hw, hk]; rfl⟩
      · exact ⟨0, by rw [List.dropWhile_cons, if_neg hw, List.drop_zero]⟩

theorem dw_glast {s : Str} (h : s.dropWhile isWsChar ≠ []) :
    (s.dropWhile isWsChar).getLast? = s.getLast? := by
  obtain ⟨k, hk⟩ := dw_drop s
  rw [hk] at h ⊢
  exact glast_drop h

theorem dw_id {s : Str} (hh : nonwsHead s) : s.dropWhile isWsChar = s := by
  cases s with
  | nil => rfl
  | cons d t =>
      have hw : isWsChar d = false := hh d rfl
      rw [List.dropWhile_cons, if_neg (by rw [hw]; exact Bool.false_ne_true)]

theorem glast_mem : ∀ {l : Str} {a : Char}, l.getLast? = some a → a ∈ l
  | [], _, h => by cases h
  | [c], a, h => by
      rw [List.getLast?_singleton] at h
      injection h with h
      rw [← h]
      exact List.mem_singleton_self c
  | c :: d :: t, a, h => by
      rw [glast_cons_ne (List.cons_ne_nil d t)] at h
      exact List.mem_cons_of_mem c (glast_mem h)

theorem glast_some : ∀ (c : Char) (t : Str), ∃ a, (c :: t).getLast? = some a
  | c, [] => ⟨c, by simp⟩
  | c, d :: t => by
      obtain ⟨a, ha⟩ := glast_some d t
      exact ⟨a, by rw [glast_cons_ne (List.cons_ne_nil d t)]; exact ha⟩

theorem trim_mem {s : Str} {c : Char} (h : c ∈ jsTrim s) : c ∈ s := by
  unfold jsTrim at h
  rw [List.mem_reverse] at h
  have h2 := dw_mem h
  rw [List.mem_reverse] at h2
  exact dw_mem h2

theorem trim_nonwsHead (s : Str) : nonwsHead (jsTrim s) := by
  intro c hc
  unfold jsTrim at hc
  rw [List.head?_reverse] at hc
  by_cases hv : ((s.dropWhile isWsChar).reverse).dropWhile isWsChar = []
  · rw [hv] at hc; cases hc
  · rw [dw_glast hv, List.getLast?_reverse] at hc
    exact dw_head s c hc

theorem trim_nonwsLast (s : Str) : nonwsLast (jsTrim s) := by
  intro c hc
  unfold jsTrim at hc
  rw [List.getLast?_reverse] at hc
  exact dw_head _ c hc

theorem trim_id {s : Str} (hh : nonwsHead s) (hl : nonwsLast s) : jsTrim s = s := by
  have hrev : nonwsHead s.reverse := by
    intro c hc
    rw [List.head?_reverse] at hc
    exact hl c hc
  unfold jsTrim
  rw [dw_id hh, dw_id hrev, List.reverse_reverse]

/-! ## Head and last preservation through whitespace collapsing -/

theorem collapseGo_cons_ws_false {c : Char} {t : Str} (hw : isWsChar c = true) :
    collapseGo false (c :: t) = ' ' :: collapseGo true t := by
  simp only [collapseGo, hw, if_true, Bool.false_eq_true, if_false]

theorem collapseGo_cons_ws_true {c : Char} {t : Str} (hw : isWsChar c = true) :
    collapseGo true (c :: t) = collapseGo true t := by
  simp only [collapseGo, hw, if_true]

theorem collapseGo_cons_nonws {c : Char} {t : Str} {b : Bool}
    (hw : isWsChar c = false) :
    collapseGo b (c :: t) = c :: collapseGo false t := by
  simp only [collapseGo, hw, Bool.false_eq_true, if_false]

theorem collapse_ne_nil : ∀ (s : Str) (b : Bool) (c : Char), c ∈ s →
    isWsChar c = false → collapseGo b s ≠ []
  | [], _, c, hc, _ => absurd hc (List.not_mem_nil c)
  | d :: t, b, c, hc, hw => by
      by_cases hwd : isWsChar d = true
      · have hct : c ∈ t := by
          rcases List.mem_cons.1 hc with h | h
          · rw [h] at hw; rw [hw] at hwd; cases hwd
          · exact h
        cases b with
        | true =>
            simp only [collapseGo, hwd, if_true]
            exact collapse_ne_nil t true c hct hw
        | false =>
            simp only [collapseGo, hwd, if_true, Bool.false_eq_true, if_false]
            exact List.cons_ne_nil _ _
      · simp only [collapseGo, hwd, Bool.false_eq_true, if_false]
        exact List.cons_ne_nil _ _

theorem collapse_nonwsHead {s : Str} (hs : nonwsHead s) :
    nonwsHead (collapseWs s) := by
  cases s with
  | nil => intro c hc; cases hc
  | cons d t =>
      have hw : isWsChar d = false := hs d rfl
      intro c hc
      unfold collapseWs at hc
      simp only [collapseGo, hw, Bool.false_eq_true, if_false, List.head?_cons] at hc
      injection hc with h
      rw [← h]
      exact hw

theorem collapse_nonwsLast : ∀ (s : Str) (b : Bool), nonwsLast s →
    nonwsLast (collapseGo b s)
  | [], _, _ => by intro c hc; cases hc
  | d :: t, b, hs => by
      cases t with
      | nil =>
          have hw : isWsChar d = false := hs d (by simp)
          simp only [collapseGo, hw, Bool.false_eq_true, if_false]
          intro c hc
          rw [List.getLast?_singleton] at hc
          injection hc with h
          rw [← h]
          exact hw
      | cons e t' =>
          have hlt : nonwsLast (e :: t') := by
            intro c hc
            exact hs c (by rw [glast_cons_ne (List.cons_ne_nil e t')]; exact hc)
          by_cases hwd : isWsChar d = true
          · obtain ⟨a, ha⟩ := glast_some e t'
            have haw : isWsChar a = false := hlt a ha
            have hne : collapseGo true (e :: t') ≠ [] :=
              collapse_ne_nil (e :: t') true a (glast_mem ha) haw
            cases b with
            | true =>
                rw [collapseGo_cons_ws_true hwd]
                exact collapse_nonwsLast (e :: t') true hlt
            | false =>
                rw [collapseGo_cons_ws_false hwd]
                intro c hc
                rw [glast_cons_ne hne] at hc
                exact collapse_nonwsLast (e :: t') true hlt c hc
          · rw [collapseGo_cons_nonws (Bool.eq_false_iff.2 hwd)]
            intro c hc
            by_cases hX : collapseGo false (e :: t') = []
            · rw [hX, List.getLast?_singleton] at hc
              injection hc with h
              rw [← h]
              exact Bool.eq_false_iff.2 hwd
            · rw [glast_cons_ne hX] at hc
              exact collapse_nonwsLast (e :: t') false hlt c hc

/-! ## Lemmas about the ASCII case fold -/

theorem lower_split (c : Char) : jsToLower c = c ∨ jsToLower c ∈ lowerLetters := by
  unfold jsToLower
  by_cases h1 : (c == 'A') = true
  · rw [if_pos h1]; exact Or.inr (by decide)
  rw [if_neg h1]
  by_cases h2 : (c == 'B') = true
  · rw [if_pos h2]; exact Or.inr (by decide)
  rw [if_neg h2]
  by_cases h3 : (c == 'C') = true
  · rw [if_pos h3]; exact Or.inr (by decide)
  rw [if_neg h3]
  by_cases h4 : (c == 'D') = true
  · rw [if_pos h4]; exact Or.inr (by decide)
  rw [if_neg h4]
  by_cases h5 : (c == 'E') = true
  · rw [if_pos h5]; exact Or.inr (by decide)
  rw [if_neg h5]
  by_cases h6 : (c == 'F') = true
  · rw [if_pos h6]; exact Or.inr (by decide)
  rw [if_neg h6]
  by_cases h7 : (c == 'G') = true
  · rw [if_pos h7]; exact Or.inr (by decide)
  rw [if_neg h7]
  by_cases h8 : (c == 'H') = true
  · rw [if_pos h8]; exact Or.inr (by decide)
  rw [if_neg h8]
  by_cases h9 : (c == 'I') = true
  · rw [if_pos h9]; exact Or.inr (by decide)
  rw [if_neg h9]
  by_cases h10 : (c == 'J') = true
  · rw [if_pos h10]; exact Or.inr (by decide)
  rw [if_neg h10]
  by_cases h11 : (c == 'K') = true
  · rw [if_pos h11]; exact Or.inr (by decide)
  rw [if_neg h11]
  by_cases h12 : (c == 'L') = true
  · rw [if_pos h12]; exact Or.inr (by decide)
  rw [if_neg h12]
  by_cases h13 : (c == 'M') = true
  · rw [if_pos h13]; exact Or.inr (by decide)
  rw [if_neg h13]
  by_cases h14 : (c == 'N') = true
  · rw [if_pos h14]; exact Or.inr (by decide)
  rw [if_neg h14]
  by_cases h15 : (c == 'O') = true
  · rw [if_pos h15]; exact Or.inr (by decide)
  rw [if_neg h15]
  by_cases h16 : (c == 'P') = true
  · rw [if_pos h16]; exact Or.inr (by decide)
  rw [if_neg h16]
  by_cases h17 : (c == 'Q') = true
  · rw [if_pos h17]; exact Or.inr (by decide)
  rw [if_neg h17]
  by_cases h18 : (c == 'R') = true
  · rw [if_pos h18]; exact Or.inr (by decide)
  rw [if_neg h18]
  by_cases h19 : (c == 'S') = true
  · rw [if_pos h19]; exact Or.inr (by decide)
  rw [if_neg h19]
  by_cases h20 : (c == 'T') = true
  · rw [if_pos h20]; exact Or.inr (by decide)
  rw [if_neg h20]
  by_cases h21 : (c == 'U') = true
  · rw [if_pos h21]; exact Or.inr (by decide)
  rw [if_neg h21]
  by_cases h22 : (c == 'V') = true
  · rw [if_pos h22]; exact Or.inr (by decide)
  rw [if_neg h22]
  by_cases h23 : (c == 'W') = true
  · rw [if_pos h23]; exact Or.inr (by decide)
  rw [if_neg h23]
  by_cases h24 : (c == 'X') = true
  · rw [if_pos h24]; exact Or.inr (by decide)
  rw [if_neg h24]
  by_cases h25 : (c == 'Y') = true
  · rw [if_pos h25]; exact Or.inr (by decide)
  rw [if_neg h25]
  by_cases h26 : (c == 'Z') = true
  · rw [if_pos h26]; exact Or.inr (by decide)
  rw [if_neg h26]
  exact Or.inl rfl

theorem lower_fix_of_mem : ∀ c ∈ lowerLetters, jsToLower c = c := by decide

theorem lower_idem (c : Char) : jsToLower (jsToLower c) = jsToLower c := by
  rcases lower_split c with h | h
  · rw [h, h]
  · exact lower_fix_of_mem _ h

theorem lower_letters_nonws : ∀ c ∈ lowerLetters, isWsChar c = false := by decide

theorem lower_nonws {c : Char} (h : isWsChar c = false) :
    isWsChar (jsToLower c) = false := by
  rcases lower_split c with h2 | h2
  · rwa [h2]
  · exact lower_letters_nonws _ h2

theorem lower_letters_notSpec : ∀ c ∈ lowerLetters, c ∉ specialChars := by decide

theorem lower_notSpec {c : Char} (h : c ∉ specialChars) :
    jsToLower c ∉ specialChars := by
  rcases lower_split c with h2 | h2
  · rwa [h2]
  · exact lower_letters_notSpec _ h2

theorem map_fix {f : Char → Char} : ∀ (l : Str), (∀ c ∈ l, f c = c) → l.map f = l
  | [], _ => rfl
  | c :: t, h => by
      rw [List.map_cons, h c (List.mem_cons_self c t),
        map_fix t (fun c' hc' => h c' (List.mem_cons_of_mem c hc'))]

theorem glast_map {f : Char → Char} :
    ∀ (l : Str), (l.map f).getLast? = l.getLast?.map f
  | [] => rfl
  | [c] => by simp
  | c :: d :: t => by
      rw [List.map_cons, glast_cons_ne (by simp), glast_cons_ne (List.cons_ne_nil d t)]
      exact glast_map (d :: t)

theorem map_lower_nonwsHead {l : Str} (h : nonwsHead l) :
    nonwsHead (l.map jsToLower) := by
  intro c hc
  rw [List.head?_map] at hc
  cases hl : l.head? with
  | none => rw [hl] at hc; cases hc
  | some a =>
      rw [hl] at hc
      injection hc with h2
      rw [← h2]
      exact lower_nonws (h a hl)

theorem map_lower_nonwsLast {l : Str} (h : nonwsLast l) :
    nonwsLast (l.map jsToLower) := by
  intro c hc
  rw [glast_map] at hc
  cases hl : l.getLast? with
  | none => rw [hl] at hc; cases hc
  | some a =>
      rw [hl] at hc
      injection hc with h2
      rw [← h2]
      exact lower_nonws (h a hl)

/-! ## The substitution chain on inputs free of the special characters -/

theorem repl_id_len {p r z : Str} (h : hasSub p z = false) :
    replaceAll p r z = z := repl_id z.length z (le_refl _) h

theorem hasSub_false_of_notMem {q z : Str} {c : Char} (hcq : c ∈ q)
    (hcz : c ∉ z) : hasSub q z = false := by
  apply Bool.eq_false_iff.2
  intro hc
  obtain ⟨u, v, rfl⟩ := (hasSub_iff q z).1 hc
  exact hcz (by simp [hcq])

theorem repl_noSpec {p r z : Str} (hz : ∀ c ∈ z, c ∉ specialChars)
    (hr : ∀ c ∈ r, c ∉ specialChars) :
    ∀ c ∈ replaceAll p r z, c ∉ specialChars := by
  intro c hc
  rcases mem_replaceAll z.length z (le_refl _) c hc with h | h
  · exact hz c h
  · exact hr c h

theorem applyRules_math {z : Str} (hz : ∀ c ∈ z, c ∉ specialChars) :
    BaseSelector.applyRules BaseSelector.mathRules z = mathCore z := by
  have hz2 : ∀ c ∈ replaceAll "infty".data "1e309".data z, c ∉ specialChars :=
    repl_noSpec hz (by decide)
  have hz3 : ∀ c ∈ replaceAll "arcsin".data "asin".data
      (replaceAll "infty".data "1e309".data z), c ∉ specialChars :=
    repl_noSpec hz2 (by decide)
  have hz4 : ∀ c ∈ replaceAll "arccos".data "acos".data
      (replaceAll "arcsin".data "asin".data
        (replaceAll "infty".data "1e309".data z)), c ∉ specialChars :=
    repl_noSpec hz3 (by decide)
  have hz5 : ∀ c ∈ replaceAll "arctan".data "atan".data
      (replaceAll "arccos".data "acos".data
        (replaceAll "arcsin".data "asin".data
          (replaceAll "infty".data "1e309".data z))), c ∉ specialChars :=
    repl_noSpec hz4 (by decide)
  unfold mathCore
  simp only [BaseSelector.mathRules, BaseSelector.applyRules]
  rw [repl_id_len (hasSub_false_of_notMem (show ('∞' : Char) ∈ "∞".data by decide)
        (fun h => (hz '∞' h) (by decide)))]
  rw [repl_id_len (hasSub_false_of_notMem (show ('×' : Char) ∈ "×".data by decide)
        (fun h => (hz5 '×' h) (by decide)))]
  rw [repl_id_len (hasSub_false_of_notMem (show ('÷' : Char) ∈ "÷".data by decide)
        (fun h => (hz5 '÷' h) (by decide)))]
  rw [repl_id_len (hasSub_false_of_notMem (show ('π' : Char) ∈ "π".data by decide)
        (fun h => (hz5 'π' h) (by decide)))]
  rw [repl_id_len (hasSub_false_of_notMem (show ('√' : Char) ∈ "√".data by decide)
        (fun h => (hz5 '√' h) (by decide)))]
  rw [repl_id_len (hasSub_false_of_notMem (show ('∪' : Char) ∈ "∪".data by decide)
        (fun h => (hz5 '∪' h) (by decide)))]
  rw [repl_id_len (hasSub_false_of_notMem (show ('∩' : Char) ∈ "∩".data by decide)
        (fun h => (hz5 '∩' h) (by decide)))]
  rw [repl_id_len (hasSub_false_of_notMem (show ('∈' : Char) ∈ "∈".data by decide)
        (fun h => (hz5 '∈' h) (by decide)))]
  rw [repl_id_len (hasSub_false_of_notMem (show ('∉' : Char) ∈ "∉".data by decide)
        (fun h => (hz5 '∉' h) (by decide)))]
  rw [repl_id_len (hasSub_false_of_notMem (show ('⊂' : Char) ∈ "⊂".data by decide)
        (fun h => (hz5 '⊂' h) (by decide)))]
  rw [repl_id_len (hasSub_false_of_notMem (show ('⊆' : Char) ∈ "⊆".data by decide)
        (fun h => (hz5 '⊆' h) (by decide)))]

theorem mathCore_kills (z : Str) :
    hasSub "infty".data (mathCore z) = false ∧
    hasSub "arcsin".data (mathCore z) = false ∧
    hasSub "arccos".data (mathCore z) = false ∧
    hasSub "arctan".data (mathCore z) = false := by
  have k2 : hasSub "infty".data
      (replaceAll "infty".data "1e309".data z) = false :=
    replKills (by decide) (by decide) (by unfold KillsOK; decide) _ _ (le_refl _)
  have k3i : hasSub "infty".data (replaceAll "arcsin".data "asin".data
      (replaceAll "infty".data "1e309".data z)) = false :=
    replNoCreate (by decide) (by decide) (by decide)
      (by unfold NoCreateOK; decide) _ _ (le_refl _) k2
  have k3 : hasSub "arcsin".data (replaceAll "arcsin".data "asin".data
      (replaceAll "infty".data "1e309".data z)) = false :=
    replKills (by decide) (by decide) (by unfold KillsOK; decide) _ _ (le_refl _)
  have k4i : hasSub "infty".data (replaceAll "arccos".data "acos".data
      (replaceAll "arcsin".data "asin".data
        (replaceAll "infty".data "1e309".data z))) = false :=
    replNoCreate (by decide) (by decide) (by decide)
      (by unfold NoCreateOK; decide) _ _ (le_refl _) k3i
  have k4s : hasSub "arcsin".data (replaceAll "arccos".data "acos".data
      (replaceAll "arcsin".data "asin".data
        (replaceAll "infty".data "1e309".data z))) = false :=
    replNoCreate (by decide) (by decide) (by decide)
      (by unfold NoCreateOK; decide) _ _ (le_refl _) k3
  have k4 : hasSub "arccos".data (replaceAll "arccos".data "acos".data
      (replaceAll "arcsin".data "asin".data
        (replaceAll "infty".data "1e309".data z))) = false :=
    replKills (by decide) (by decide) (by unfold KillsOK; decide) _ _ (le_refl _)
  have k5i : hasSub "infty".data (replaceAll "arctan".data "atan".data
      (replaceAll "arccos".data "acos".data
        (replaceAll "arcsin".data "asin".data
          (replaceAll "infty".data "1e309".data z)))) = false :=
    replNoCreate (by decide) (by decide) (by decide)
      (by unfold NoCreateOK; decide) _ _ (le_refl _) k4i
  have k5s : hasSub "arcsin".data (replaceAll "arctan".data "atan".data
      (replaceAll "arccos".data "acos".data
        (replaceAll "arcsin".data "asin".data
          (replaceAll "infty".data "1e309".data z)))) = false :=
    replNoCreate (by decide) (by decide) (by decide)
      (by unfold NoCreateOK; decide) _ _ (le_refl _) k4s
  have k5c : hasSub "arccos".data (replaceAll "arctan".data "atan".data
      (replaceAll "arccos".data "acos".data
        (replaceAll "arcsin".data "asin".data
          (replaceAll "infty".data "1e309".data z)))) = false :=
    replNoCreate (by decide) (by decide) (by decide)
      (by unfold NoCreateOK; decide) _ _ (le_refl _) k4
  have k5t : hasSub "arctan".data (replaceAll "arctan".data "atan".data
      (replaceAll "arccos".data "acos".data
        (replaceAll "arcsin".data "asin".data
          (replaceAll "infty".data "1e309".data z)))) = false :=
    replKills (by decide) (by decide) (by unfold KillsOK; decide) _ _ (le_refl _)
  exact ⟨k5i, k5s, k5c, k5t⟩

theorem mathCore_mem {z : Str} : ∀ c ∈ mathCore z,
    c ∈ z ∨ c ∈ "1e309".data ∨ c ∈ "asin".data ∨ c ∈ "acos".data ∨
      c ∈ "atan".data := by
  intro c hc
  unfold mathCore at hc
  rcases mem_replaceAll _ _ (le_refl _) c hc with h | h
  · rcases mem_replaceAll _ _ (le_refl _) c h with h2 | h2
    · rcases mem_replaceAll _ _ (le_refl _) c h2 with h3 | h3
      · rcases mem_replaceAll _ _ (le_refl _) c h3 with h4 | h4
        · exact Or.inl h4
        · exact Or.inr (Or.inl h4)
      · exact Or.inr (Or.inr (Or.inl h3))
    · exact Or.inr (Or.inr (Or.inr (Or.inl h2)))
  · exact Or.inr (Or.inr (Or.inr (Or.inr h)))

theorem mathCore_noSpec {z : Str} (hz : ∀ c ∈ z, c ∉ specialChars) :
    ∀ c ∈ mathCore z, c ∉ specialChars := by
  intro c hc
  rcases mathCore_mem c hc with h | h | h | h | h
  · exact hz c h
  · exact (by decide : ∀ c ∈ "1e309".data, c ∉ specialChars) c h
  · exact (by decide : ∀ c ∈ "asin".data, c ∉ specialChars) c h
  · exact (by decide : ∀ c ∈ "acos".data, c ∉ specialChars) c h
  · exact (by decide : ∀ c ∈ "atan".data, c ∉ specialChars) c h

theorem mathCore_lower_fix {z : Str} (hz : ∀ c ∈ z, jsToLower c = c) :
    ∀ c ∈ mathCore z, jsToLower c = c := by
  intro c hc
  rcases mathCore_mem c hc with h | h | h | h | h
  · exact hz c h
  · exact (by decide : ∀ c ∈ "1e309".data, jsToLower c = c) c h
  · exact (by decide : ∀ c ∈ "asin".data, jsToLower c = c) c h
  · exact (by decide : ∀ c ∈ "acos".data, jsToLower c = c) c h
  · exact (by decide : ∀ c ∈ "atan".data, jsToLower c = c) c h

theorem nonwsHead_of_head {s : Str} {c : Char} (h : s.head? = some c)
    (hw : isWsChar c = false) : nonwsHead s := by
  intro c' hc'
  rw [h] at hc'
  injection hc' with h'
  rw [← h']
  exact hw

theorem nonwsLast_of_last {s : Str} {c : Char} (h : s.getLast? = some c)
    (hw : isWsChar c = false) : nonwsLast s := by
  intro c' hc'
  rw [h] at hc'
  injection hc' with h'
  rw [← h']
  exact hw

theorem mathCore_nonwsHead {z : Str} (h : nonwsHead z) :
    nonwsHead (mathCore z) :=
  repl_nonwsHead (by decide)
    (repl_nonwsHead (by decide)
      (repl_nonwsHead (by decide)
        (repl_nonwsHead (by decide) h
          (nonwsHead_of_head (c := '1') (by decide) (by decide)))
        (nonwsHead_of_head (c := 'a') (by decide) (by decide)))
      (nonwsHead_of_head (c := 'a') (by decide) (by decide)))
    (nonwsHead_of_head (c := 'a') (by decide) (by decide))

theorem mathCore_nonwsLast {z : Str} (h : nonwsLast z) :
    nonwsLast (mathCore z) :=
  repl_nonwsLast (by decide)
    (repl_nonwsLast (by decide)
      (repl_nonwsLast (by decide)
        (repl_nonwsLast (by decide) h
          (nonwsLast_of_last (c := '9') (by decide) (by decide)))
        (nonwsLast_of_last (c := 'n') (by decide) (by decide)))
      (nonwsLast_of_last (c := 's') (by decide) (by decide)))
    (nonwsLast_of_last (c := 'n') (by decide) (by decide))

/-! ## Idempotence of the shared normalization -/

theorem normalizePure_eq (cfg : SelectorConfig) (s : Str) :
    BaseSelector.normalizePure cfg s =
      collapseWs (BaseSelector.applyRules BaseSelector.mathRules
        (if cfg.caseSensitive then
            (if cfg.stripSpaces then jsTrim (collapseWs s) else s)
          else
            (if cfg.stripSpaces then jsTrim (collapseWs s) else s).map
              jsToLower)) := rfl

theorem normalizePure_idem (cfg : SelectorConfig) (s : Str)
    (hspec : ∀ c ∈ s, c ∉ specialChars) :
    BaseSelector.normalizePure cfg (BaseSelector.normalizePure cfg s) =
      BaseSelector.normalizePure cfg s := by
  rw [normalizePure_eq cfg s]
  set n₁ : Str := if cfg.stripSpaces then jsTrim (collapseWs s) else s with hn1
  set n₂ : Str := if cfg.caseSensitive then n₁ else n₁.map jsToLower with hn2
  have hn1spec : ∀ c ∈ n₁, c ∉ specialChars := by
    rw [hn1]
    by_cases hss : cfg.stripSpaces = true
    · rw [if_pos hss]
      intro c hc
      rcases collapse_mem s false c (trim_mem hc) with h | h
      · exact hspec c h
      · rw [h]; decide
    · rw [if_neg hss]
      exact hspec
  have hn2spec : ∀ c ∈ n₂, c ∉ specialChars := by
    rw [hn2]
    by_cases hcs : cfg.caseSensitive = true
    · rw [if_pos hcs]
      exact hn1spec
    · rw [if_neg hcs]
      intro c hc
      rw [List.mem_map] at hc
      obtain ⟨a, ha, rfl⟩ := hc
      exact lower_notSpec (hn1spec a ha)
  rw [applyRules_math hn2spec]
  set x : Str := collapseWs (mathCore n₂) with hx
  have hxws : wsOnlySpace x := collapse_wsOnly (mathCore n₂) false
  have hxnd : noDblSpace x := collapse_noDbl (mathCore n₂) false
  have hcx : collapseWs x = x := collapse_id x hxws hxnd
  have hxspec : ∀ c ∈ x, c ∉ specialChars := by
    intro c hc
    rcases collapse_mem (mathCore n₂) false c
        (show c ∈ collapseWs (mathCore n₂) by rw [← hx]; exact hc) with h | h
    · exact mathCore_noSpec hn2spec c h
    · rw [h]; decide
  have hK := mathCore_kills n₂
  have hkill : ∀ q : Str, q ≠ [] → (∀ c ∈ q, isWsChar c = false) →
      hasSub q (mathCore n₂) = false → hasSub q x = false := by
    intro q hq hqw h
    rw [hx]
    exact collapse_no_create hq hqw (mathCore n₂) false h
  have hmx : mathCore x = x := by
    unfold mathCore
    rw [repl_id_len (hkill _ (by decide) (by decide) hK.1),
        repl_id_len (hkill _ (by decide) (by decide) hK.2.1),
        repl_id_len (hkill _ (by decide) (by decide) hK.2.2.1),
        repl_id_len (hkill _ (by decide) (by decide) hK.2.2.2)]
  have hstrip : (if cfg.stripSpaces then jsTrim (collapseWs x) else x) = x := by
    by_cases hss : cfg.stripSpaces = true
    · rw [if_pos hss, hcx]
      have hh1 : nonwsHead n₁ := by
        rw [hn1, if_pos hss]
        exact trim_nonwsHead _
      have hl1 : nonwsLast n₁ := by
        rw [hn1, if_pos hss]
        exact trim_nonwsLast _
      have hh2 : nonwsHead n₂ := by
        rw [hn2]
        by_cases hcs : cfg.caseSensitive = true
        · rw [if_pos hcs]; exact hh1
        · rw [if_neg hcs]; exact map_lower_nonwsHead hh1
      have hl2 : nonwsLast n₂ := by
        rw [hn2]
        by_cases hcs : cfg.caseSensitive = true
        · rw [if_pos hcs]; exact hl1
        · rw [if_neg hcs]; exact map_lower_nonwsLast hl1
      have hhx : nonwsHead x := by
        rw [hx]
        exact collapse_nonwsHead (mathCore_nonwsHead hh2)
      have hlx : nonwsLast x := by
        rw [hx]
        exact collapse_nonwsLast _ false (mathCore_nonwsLast hl2)
      exact trim_id hhx hlx
    · rw [if_neg hss]
  have hlower : (if cfg.caseSensitive then x else x.map jsToLower) = x := by
    by_cases hcs : cfg.caseSensitive = true
    · rw [if_pos hcs]
    · rw [if_neg hcs]
      apply map_fix
      intro c hc
      rcases collapse_mem (mathCore n₂) false c
          (show c ∈ collapseWs (mathCore n₂) by rw [← hx]; exact hc) with h | h
      · refine mathCore_lower_fix ?_ c h
        intro a ha
        rw [hn2, if_neg hcs] at ha
        rw [List.mem_map] at ha
        obtain ⟨b, hb, rfl⟩ := ha
        exact lower_idem b
      · rw [h]; decide
  rw [normalizePure_eq cfg x, hstrip, hlower, applyRules_math hxspec, hmx, hcx]

/-! ## Symmetry of the absolute difference -/

theorem norm_neg (x : Int) (d : Nat) : Q.norm (-x) d = Q.neg (Q.norm x d) := by
  unfold Q.norm
  by_cases hd : d = 0
  · rw [if_pos hd, if_pos hd]
    rfl
  · rw [if_neg hd, if_neg hd]
    unfold Q.neg
    simp only [Int.natAbs_neg]
    have hdvd : ((Nat.gcd x.natAbs d : Nat) : Int) ∣ x := by
      rw [Int.natCast_dvd]
      exact Nat.gcd_dvd_left _ _
    rw [Int.neg_ediv_of_dvd hdvd]

theorem sub_antisymm (a b : Q) : Q.sub b a = Q.neg (Q.sub a b) := by
  show Q.norm (b.n * ((a.d : Nat) : Int) + -a.n * ((b.d : Nat) : Int))
      (b.d * a.d) =
    Q.neg (Q.norm (a.n * ((b.d : Nat) : Int) + -b.n * ((a.d : Nat) : Int))
      (a.d * b.d))
  rw [Nat.mul_comm b.d a.d,
    (by ring : b.n * ((a.d : Nat) : Int) + -a.n * ((b.d : Nat) : Int) =
      -(a.n * ((b.d : Nat) : Int) + -b.n * ((a.d : Nat) : Int))),
    norm_neg]

theorem absQ_neg (u : Q) : Q.absQ (Q.neg u) = Q.absQ u := by
  unfold Q.absQ Q.neg
  simp [Int.natAbs_neg]

theorem leB_bound_neg (u v : Q) : Q.leB v (Q.neg u) = Q.leB u (Q.neg v) := by
  unfold Q.leB Q.neg
  simp only [Int.neg_mul]
  rw [decide_eq_decide]
  omega

theorem neg_neg_q (u : Q) : Q.neg (Q.neg u) = u := by
  simp [Q.neg]

theorem abs_ofRat_neg (u : Q) :
    JsNum.abs (JsNum.ofRat (Q.neg u)) = JsNum.abs (JsNum.ofRat u) := by
  unfold JsNum.ofRat
  have h1 : Q.leB JsNum.overflowBound (Q.neg u) =
      Q.leB u (Q.neg JsNum.overflowBound) :=
    leB_bound_neg u JsNum.overflowBound
  have h2 : Q.leB (Q.neg u) (Q.neg JsNum.overflowBound) =
      Q.leB JsNum.overflowBound u := by
    rw [leB_bound_neg, neg_neg_q]
  rw [h1, h2]
  by_cases hc1 : Q.leB u (Q.neg JsNum.overflowBound) = true
  · by_cases hc2 : Q.leB JsNum.overflowBound u = true
    · simp [hc1, hc2, JsNum.abs]
    · simp [hc1, hc2, JsNum.abs]
  · by_cases hc2 : Q.leB JsNum.overflowBound u = true
    · simp [hc1, hc2, JsNum.abs]
    · simp [hc1, hc2, JsNum.abs, absQ_neg]

theorem absSub_comm (x y : JsNum) :
    JsNum.abs (JsNum.sub x y) = JsNum.abs (JsNum.sub y x) := by
  cases x <;> cases y <;> try rfl
  case num.num a b =>
    show JsNum.abs (JsNum.ofRat (Q.sub a b)) = JsNum.abs (JsNum.ofRat (Q.sub b a))
    rw [sub_antisymm a b, abs_ofRat_neg]

/-! ## Shape of `validate` results and factory dispatch -/

theorem bind_ok_eq {α β : Type} (a : α) (f : α → Except String β) :
    (Except.ok a >>= f) = f a := rfl

theorem bind_error_eq {α β : Type} (e : String) (f : α → Except String β) :
    ((Except.error e : Except String α) >>= f) = Except.error e := rfl

theorem pure_eq_ok {α : Type} (a : α) :
    (pure a : Except String α) = Except.ok a := rfl

theorem validateEmpty_none {s : Str} (hs : jsTrim s ≠ []) :
    BaseSelector.validateEmpty s = none := by
  rw [BaseSelector.validateEmpty, if_neg hs]

theorem number_validate_ok_bool {ev : EvalFn} {cfg : SelectorConfig} {b : Str}
    {rb : ValidationResult} (hb : jsTrim b ≠ [])
    (h : NumberSelector.validate ev cfg b = .ok rb) :
    rb.ok = some true ∨ rb.ok = some false := by
  unfold NumberSelector.validate at h
  rw [validateEmpty_none hb] at h
  dsimp only at h
  cases hn : BaseSelector.normalizeInput cfg b with
  | error e =>
      rw [hn] at h
      rw [bind_error_eq] at h
      cases h
  | ok nb =>
      rw [hn] at h
      rw [bind_ok_eq] at h
      cases hev : ev nb [] with
      | error e =>
          rw [hev] at h
          dsimp only at h
          injection h with h
          rw [← h]
          exact Or.inr rfl
      | ok v =>
          rw [hev] at h
          dsimp only at h
          by_cases hcond : (v.isNumber && !v.isNaN && v.isFinite) = true
          · rw [if_pos hcond] at h
            injection h with h
            rw [← h]
            exact Or.inl rfl
          · rw [if_neg hcond] at h
            injection h with h
            rw [← h]
            exact Or.inr rfl

theorem createSelector_unsupported (ev : EvalFn) (dv : DerivFn) (ty : String)
    (cfg : SelectorConfig) (hty : ty ∉ SelectorFactory.supportedTypes) :
    SelectorFactory.createSelector ev dv ty cfg =
      .error ("Selector tipo '" ++ ty ++ "' no está implementado aún") := by
  simp only [SelectorFactory.supportedTypes, List.mem_cons,
    List.not_mem_nil, or_false, not_or] at hty
  obtain ⟨h1, h2, h3, h4, h5, h6, h7⟩ := hty
  simp [SelectorFactory.createSelector, h1, h2, h3, h4, h5, h6, h7]

end Matuc

namespace Matuc

set_option maxRecDepth 8000

/-! ## The claims -/

/-- **C1** No exception propagates out of a Factory or Service entry point:
`validateResponse` and `validateFormat` are total functions into
`ValidationResult` and on an unregistered shape identifier return `ok = false`
with metadata type `factory_error` / `validation_error` respectively;
`validateSingle` coincides with `validateResponse`, `validateBatch` always
returns an `.ok` batch result, `validateWithTimeout` returns an `.ok` result
whichever side of the race wins, and `quickValidate` returns `false` on an
unregistered shape. -/
theorem factory_service_totality (ev : EvalFn) (dv : DerivFn) (ty : String)
    (correct userInput input : Str) (cfg : SelectorConfig)
    (req : ValidationRequest) (request : BatchValidationRequest)
    (timedOut : Bool) (ms : Nat)
    (hty : ty ∉ SelectorFactory.supportedTypes) :
    ((SelectorFactory.validateResponse ev dv ty correct userInput cfg).ok =
        some false ∧
      (SelectorFactory.validateResponse ev dv ty correct userInput cfg).mtype =
        "factory_error") ∧
    ((SelectorFactory.validateFormat ev dv ty input cfg).ok = some false ∧
      (SelectorFactory.validateFormat ev dv ty input cfg).mtype =
        "validation_error") ∧
    ValidationService.validateSingle ev dv req =
      SelectorFactory.validateResponse ev dv req.ty req.correctAnswer
        req.userAnswer req.cfg ∧
    ValidationService.validateBatch ev dv request =
      .ok (ValidationService.mkBatchResult ev dv request) ∧
    (∃ r, ValidationService.validateWithTimeout ev dv timedOut req ms = .ok r) ∧
    ValidationService.quickValidate ev dv ty input = false := by
  refine ⟨⟨?_, ?_⟩, ⟨?_, ?_⟩, rfl, rfl, ?_, ?_⟩
  · simp [SelectorFactory.validateResponse,
      createSelector_unsupported ev dv ty cfg hty, bind_error_eq]
  · simp [SelectorFactory.validateResponse,
      createSelector_unsupported ev dv ty cfg hty, bind_error_eq]
  · simp [SelectorFactory.validateFormat,
      createSelector_unsupported ev dv ty cfg hty, bind_error_eq]
  · simp [SelectorFactory.validateFormat,
      createSelector_unsupported ev dv ty cfg hty, bind_error_eq]
  · cases timedOut
    · exact ⟨_, rfl⟩
    · exact ⟨_, rfl⟩
  · simp [ValidationService.quickValidate,
      createSelector_unsupported ev dv ty { timeout := 1000 } hty, bind_error_eq]

/-- Witness for C1: the shape `"matriz"` is not registered, and the entry
points return the converted results at concrete inputs. -/
theorem factory_service_totality_witness :
    ("matriz" : String) ∉ SelectorFactory.supportedTypes ∧
    (SelectorFactory.validateResponse mathjsEval (fun _ _ => .error "") "matriz"
        "1".data "1".data {}).mtype = "factory_error" ∧
    (SelectorFactory.validateFormat mathjsEval (fun _ _ => .error "") "matriz"
        "1".data {}).mtype = "validation_error" ∧
    ValidationService.quickValidate mathjsEval (fun _ _ => .error "") "matriz"
      "1".data = false := by
  refine ⟨by decide, ?_, ?_, ?_⟩
  · exact (factory_service_totality mathjsEval (fun _ _ => .error "") "matriz"
      "1".data "1".data "1".data {} ⟨"numero", "1".data, "1".data, {}⟩
      ⟨"e", []⟩ false 0 (by decide)).1.2
  · exact (factory_service_totality mathjsEval (fun _ _ => .error "") "matriz"
      "1".data "1".data "1".data {} ⟨"numero", "1".data, "1".data, {}⟩
      ⟨"e", []⟩ false 0 (by decide)).2.1.2
  · exact (factory_service_totality mathjsEval (fun _ _ => .error "") "matriz"
      "1".data "1".data "1".data {} ⟨"numero", "1".data, "1".data, {}⟩
      ⟨"e", []⟩ false 0 (by decide)).2.2.2.2.2

/-- **C2** Empty-input law: for every registered shape and every
configuration, `validate s` returns `ok = null` whenever `s` trims to the
empty string, and `compare correct s` returns `ok = null` whenever the user
answer `s` trims to the empty string, for every correct answer. -/
theorem empty_input_law (ev : EvalFn) (dv : DerivFn) (cfg : SelectorConfig)
    (ty : String) (correct s : Str)
    (hty : ty ∈ SelectorFactory.supportedTypes) (hs : jsTrim s = []) :
    ∃ sel, SelectorFactory.createSelector ev dv ty cfg = .ok sel ∧
      okOf (sel.validate s) = some none ∧
      okOf (sel.compare correct s) = some none := by
  have hve : BaseSelector.validateEmpty s =
      some { ok := none, title := "¡Atención!",
             msg := "No has ingresado una respuesta", mtype := "empty_input" } := by
    rw [BaseSelector.validateEmpty, if_pos hs]
  simp only [SelectorFactory.supportedTypes, List.mem_cons,
    List.not_mem_nil, or_false] at hty
  rcases hty with rfl | rfl | rfl | rfl | rfl | rfl | rfl
  · exact ⟨⟨NumberSelector.validate ev cfg, NumberSelector.compare ev cfg⟩,
      by simp [SelectorFactory.createSelector],
      by simp [NumberSelector.validate, hve, okOf],
      by simp [NumberSelector.compare, hve, okOf]⟩
  · exact ⟨⟨SetSelector.validate ev cfg, SetSelector.compare ev cfg⟩,
      by simp [SelectorFactory.createSelector],
      by simp [SetSelector.validate, hve, okOf],
      by simp [SetSelector.compare, hve, okOf]⟩
  · exact ⟨⟨VectorSelector.validate ev cfg, VectorSelector.compare ev cfg⟩,
      by simp [SelectorFactory.createSelector],
      by simp [VectorSelector.validate, hve, okOf],
      by simp [VectorSelector.compare, hve, okOf]⟩
  · exact ⟨⟨PointSelector.validate ev cfg, PointSelector.compare ev cfg⟩,
      by simp [SelectorFactory.createSelector],
      by simp [PointSelector.validate, hve, okOf],
      by simp [PointSelector.compare, hve, okOf]⟩
  · exact ⟨⟨FormulaSelector.validate ev cfg, FormulaSelector.compare ev cfg⟩,
      by simp [SelectorFactory.createSelector],
      by simp [FormulaSelector.validate, hve, okOf],
      by simp [FormulaSelector.compare, hve, okOf]⟩
  · exact ⟨⟨EquationSelector.validate ev cfg, EquationSelector.compare ev cfg⟩,
      by simp [SelectorFactory.createSelector],
      by simp [EquationSelector.validate, hve, okOf],
      by simp [EquationSelector.compare, hve, okOf]⟩
  · exact ⟨⟨AntiderivativeSelector.validate ev dv cfg,
        AntiderivativeSelector.compare ev dv cfg⟩,
      by simp [SelectorFactory.createSelector],
      by simp [AntiderivativeSelector.validate, hve, okOf],
      by simp [AntiderivativeSelector.compare, hve, okOf]⟩

/-- Witness for C2: the `numero` shape at a whitespace-only user answer. -/
theorem empty_input_law_witness :
    ("numero" : String) ∈ SelectorFactory.supportedTypes ∧
    jsTrim "  ".data = [] ∧
    (∃ sel, SelectorFactory.createSelector mathjsEval (fun _ _ => .error "")
        "numero" {} = .ok sel ∧
      okOf (sel.validate "  ".data) = some none ∧
      okOf (sel.compare "1".data "  ".data) = some none) :=
  ⟨by decide, by decide,
    empty_input_law mathjsEval (fun _ _ => .error "") {} "numero" "1".data
      "  ".data (by decide) (by decide)⟩

/-- **C3** Number equivalence rule: when both answers validate as numbers
(`ok = true`) and their normalized forms evaluate to `cv` and `uv`,
`compare` returns a result whose `ok` is exactly
`abs(cv − uv) ≤ tolerance`, and on failure the metadata carries type
`tolerance_exceeded` and the absolute difference. -/
theorem number_tolerance_equivalence (ev : EvalFn) (cfg : SelectorConfig)
    (a b : Str) (ra rb : ValidationResult) (na nb : Str) (cv uv : JsNum)
    (hb : jsTrim b ≠ [])
    (hva : NumberSelector.validate ev cfg a = .ok ra) (hra : ra.ok = some true)
    (hvb : NumberSelector.validate ev cfg b = .ok rb) (hrb : rb.ok = some true)
    (hna : BaseSelector.normalizeInput cfg a = .ok na)
    (hnb : BaseSelector.normalizeInput cfg b = .ok nb)
    (hea : ev na [] = .ok cv) (heb : ev nb [] = .ok uv) :
    ∃ r, NumberSelector.compare ev cfg a b = .ok r ∧
      r.ok = some (JsNum.leRat (JsNum.abs (JsNum.sub cv uv)) cfg.tolerance) ∧
      (JsNum.leRat (JsNum.abs (JsNum.sub cv uv)) cfg.tolerance = false →
        r.mtype = "tolerance_exceeded" ∧
        r.difference = some (JsNum.abs (JsNum.sub cv uv))) := by
  refine ⟨if JsNum.leRat (JsNum.abs (JsNum.sub cv uv)) cfg.tolerance then
      BaseSelector.createSuccessResponse "¡Excelente!"
        "Has encontrado la respuesta correcta" "correct_answer"
        (some (JsNum.abs (JsNum.sub cv uv)))
    else
      BaseSelector.createErrorResponse "Sigue intentando"
        "Tu respuesta difiere de la esperada" "tolerance_exceeded"
        (some (JsNum.abs (JsNum.sub cv uv))), ?_, ?_, ?_⟩
  · unfold NumberSelector.compare
    rw [validateEmpty_none hb]
    try dsimp only
    rw [hva, bind_ok_eq]
    try dsimp only
    rw [hvb, bind_ok_eq]
    try dsimp only
    rw [hra, hrb]
    simp only [ne_eq, not_true_eq_false, Bool.false_eq_true, if_false,
      reduceCtorEq, ite_false]
    rw [hna, bind_ok_eq]
    try dsimp only
    rw [hnb, bind_ok_eq]
    try dsimp only
    rw [hea, bind_ok_eq]
    try dsimp only
    rw [heb, bind_ok_eq]
    try dsimp only
    rfl
  · by_cases hle : JsNum.leRat (JsNum.abs (JsNum.sub cv uv)) cfg.tolerance = true
    · rw [if_pos hle, hle]
      rfl
    · rw [if_neg hle]
      rw [Bool.not_eq_true] at hle
      rw [hle]
      rfl
  · intro hle
    rw [if_neg (by rw [hle]; exact Bool.false_ne_true)]
    exact ⟨rfl, rfl⟩

/-- Witness for C3: `compare "42" "42.0"` succeeds with `ok = true` and
`compare "10" "10.02"` with the default `tolerance = 0.01` fails with
`ok = false`, type `tolerance_exceeded` and difference `0.02`. -/
theorem number_tolerance_equivalence_witness :
    okOf (NumberSelector.compare mathjsEval {} "42".data "42.0".data) =
      some (some true) ∧
    (NumberSelector.compare mathjsEval {} "10".data "10.02".data).map
        (fun r => (r.ok, r.mtype, r.difference)) =
      .ok (some false, "tolerance_exceeded", some (JsNum.num ⟨1, 50⟩)) := by
  constructor
  · obtain ⟨r, hr, hok, -⟩ :=
      number_tolerance_equivalence mathjsEval {} "42".data "42.0".data
        (BaseSelector.createSuccessResponse "Número válido" "es un número válido"
          "number_validation")
        (BaseSelector.createSuccessResponse "Número válido" "es un número válido"
          "number_validation")
        "42".data "42.0".data (JsNum.num 42) (JsNum.num 42)
        (by decide) (by decide) (by decide) (by decide) (by decide)
        (by decide) (by decide) (by decide) (by decide)
    rw [hr]
    show some r.ok = some (some true)
    rw [hok]
    decide
  · obtain ⟨r, hr, hok, hdiff⟩ :=
      number_tolerance_equivalence mathjsEval {} "10".data "10.02".data
        (BaseSelector.createSuccessResponse "Número válido" "es un número válido"
          "number_validation")
        (BaseSelector.createSuccessResponse "Número válido" "es un número válido"
          "number_validation")
        "10".data "10.02".data (JsNum.num 10) (JsNum.num ⟨501, 50⟩)
        (by decide) (by decide) (by decide) (by decide) (by decide)
        (by decide) (by decide) (by decide) (by decide)
    obtain ⟨hm, hd⟩ := hdiff (by decide)
    rw [hr]
    show Except.ok (r.ok, r.mtype, r.difference) =
      Except.ok (some false, "tolerance_exceeded", some (JsNum.num ⟨1, 50⟩))
    rw [hok, hm, hd]
    decide

/-- **C4** Formula sampled equivalence: when both formulas validate, `compare`
counts agreement at exactly the sample points
−5, −2, −1, −0.5, −0.1, 0, 0.1, 0.5, 1, 2, 5, 10, 20 (a point where either
evaluation throws counts as a mismatch, see `formulaPointMatches`) and `ok` is
true exactly when the success rate reaches 90%. -/
theorem formula_sampled_equivalence (ev : EvalFn) (cfg : SelectorConfig)
    (a b : Str) (ra rb : ValidationResult) (cn un : Str)
    (hb : jsTrim b ≠ [])
    (hva : FormulaSelector.validate ev cfg a = .ok ra) (hra : ra.ok = some true)
    (hvb : FormulaSelector.validate ev cfg b = .ok rb) (hrb : rb.ok = some true)
    (hna : BaseSelector.normalizeInput cfg a = .ok cn)
    (hnb : BaseSelector.normalizeInput cfg b = .ok un) :
    FormulaSelector.generateTestPoints =
      [⟨-5, 1⟩, ⟨-2, 1⟩, ⟨-1, 1⟩, ⟨-1, 2⟩, ⟨-1, 10⟩, 0, ⟨1, 10⟩, ⟨1, 2⟩,
        1, 2, 5, 10, 20] ∧
    ∃ r, FormulaSelector.compare ev cfg a b = .ok r ∧
      r.ok = some (Q.leB 90 (Q.mul (Q.div
        (Q.ofInt (FormulaSelector.countFormulaMatches ev cfg
          (replaceAll "x".data "X".data cn) (replaceAll "x".data "X".data un)
          FormulaSelector.generateTestPoints))
        (Q.ofInt FormulaSelector.generateTestPoints.length)) 100)) := by
  refine ⟨rfl, ?_⟩
  set rate := Q.mul (Q.div
    (Q.ofInt (FormulaSelector.countFormulaMatches ev cfg
      (replaceAll "x".data "X".data cn) (replaceAll "x".data "X".data un)
      FormulaSelector.generateTestPoints))
    (Q.ofInt FormulaSelector.generateTestPoints.length)) 100 with hrate
  refine ⟨if Q.leB 90 rate then
      BaseSelector.createSuccessResponse "¡Excelente!"
        "Tu fórmula coincide con la solución" "formula_match"
    else
      BaseSelector.createErrorResponse "Fórmula incorrecta"
        "Tu fórmula no coincide en suficientes puntos" "formula_mismatch",
    ?_, ?_⟩
  · unfold FormulaSelector.compare
    rw [validateEmpty_none hb]
    try dsimp only
    rw [hva, bind_ok_eq]
    try dsimp only
    rw [hvb, bind_ok_eq]
    try dsimp only
    rw [hra, hrb]
    simp only [ne_eq, not_true_eq_false, Bool.false_eq_true, if_false,
      reduceCtorEq, ite_false]
    rw [hna, bind_ok_eq]
    try dsimp only
    rw [hnb, bind_ok_eq]
    try dsimp only
    rfl
  · by_cases hle : Q.leB 90 rate = true
    · rw [if_pos hle, hle]
      rfl
    · rw [if_neg hle]
      rw [Bool.not_eq_true] at hle
      rw [hle]
      rfl

/-- Witness for C4: `compare "x^2" "x*x"` matches at every sample point, so
`ok = true`. -/
theorem formula_sampled_equivalence_witness :
    okOf (FormulaSelector.compare mathjsEval {} "x^2".data "x*x".data) =
      some (some true) := by
  obtain ⟨-, r, hr, hok⟩ :=
    formula_sampled_equivalence mathjsEval {} "x^2".data "x*x".data
      (BaseSelector.createSuccessResponse "Fórmula válida"
        "es una fórmula válida en x" "valid_formula")
      (BaseSelector.createSuccessResponse "Fórmula válida"
        "es una fórmula válida en x" "valid_formula")
      "x^2".data "x*x".data
      (by decide) (by decide) (by decide) (by decide) (by decide)
      (by decide) (by decide)
  rw [hr]
  show some r.ok = some (some true)
  rw [hok]
  decide

/-- **C5** Set order-independence fails on the spec's own example: under the
default configuration the shared normalization lowercases the input, the
union separator `U` becomes `u`, `parseUnionParts` (which splits on the
uppercase `U` only) no longer splits, and the unsplit part is neither an
interval nor a discrete set, so `compare "{1,2} U (0,1)" "(0,1) U {2,1}"`
returns `ok = false` with type `invalid_set`.  With `caseSensitive := true`
the splitting works and the same comparison returns `ok = true` with
`perfect_match`, confirming that order-independence itself is implemented. -/
theorem set_order_independence_bug :
    (SetSelector.compare mathjsEval {} "{1,2} U (0,1)".data
        "(0,1) U {2,1}".data).map (fun r => (r.ok, r.mtype)) =
      .ok (some false, "invalid_set") ∧
    (SetSelector.compare mathjsEval { caseSensitive := true }
        "{1,2} U (0,1)".data "(0,1) U {2,1}".data).map
        (fun r => (r.ok, r.mtype)) =
      .ok (some true, "perfect_match") := by
  constructor
  · decide
  · decide

/-- **C6** (amended) Normalization is idempotent for every configuration
without custom formatters on every input free of the substituted special
characters `∞ × ÷ π √ ∪ ∩ ∈ ∉ ⊂ ⊆`; on such inputs `normalizeInput` is the
pure normalization `normalizePure`, and that function is idempotent.  (On
inputs containing special characters idempotence fails, see the
counterexample.) -/
theorem normalization_idempotent_amended (cfg : SelectorConfig) (s : Str)
    (hcf : cfg.customFormatters = [])
    (hspec : ∀ c ∈ s, c ∉ specialChars) :
    BaseSelector.normalizeInput cfg s =
      .ok (BaseSelector.normalizePure cfg s) ∧
    BaseSelector.normalizePure cfg (BaseSelector.normalizePure cfg s) =
      BaseSelector.normalizePure cfg s := by
  constructor
  · unfold BaseSelector.normalizeInput BaseSelector.normalizePure
    rw [hcf]
    rfl
  · exact normalizePure_idem cfg s hspec

/-- Witness for C6: the default configuration and an input that exercises
whitespace collapapse, trimming, lowercasing and the `arcsin` rule. -/
theorem normalization_idempotent_amended_witness :
    ({} : SelectorConfig).customFormatters = [] ∧
    (∀ c ∈ "  2 +  ARCSIN(X) ".data, c ∉ specialChars) ∧
    BaseSelector.normalizeInput {} "  2 +  ARCSIN(X) ".data =
      .ok (BaseSelector.normalizePure {} "  2 +  ARCSIN(X) ".data) ∧
    BaseSelector.normalizePure {}
        (BaseSelector.normalizePure {} "  2 +  ARCSIN(X) ".data) =
      BaseSelector.normalizePure {} "  2 +  ARCSIN(X) ".data :=
  ⟨rfl, by decide,
    (normalization_idempotent_amended {} "  2 +  ARCSIN(X) ".data rfl
      (by decide)).1,
    (normalization_idempotent_amended {} "  2 +  ARCSIN(X) ".data rfl
      (by decide)).2⟩

/-- Counterexample to C6 as stated: on the union glyph `∪` the first pass
rewrites `∪ → U` after the lowercasing stage, and the second pass lowercases
that `U` to `u`, so the two passes differ. -/
theorem normalization_not_idempotent_on_special :
    BaseSelector.normalizePure {} (BaseSelector.normalizePure {} "∪".data) ≠
      BaseSelector.normalizePure {} "∪".data := by decide

/-- **C7** (amended) Tolerance symmetry: for the number validator,
`compare a b` and `compare b a` agree on `ok` whenever neither input trims to
the empty string.  (If exactly one input is empty the two orders differ, see
the counterexample: the empty user answer yields `ok = null` while the empty
correct answer yields `ok = false`.) -/
theorem number_compare_ok_symm (ev : EvalFn) (cfg : SelectorConfig)
    (a b : Str) (ha : jsTrim a ≠ []) (hb : jsTrim b ≠ []) :
    okOf (NumberSelector.compare ev cfg a b) =
      okOf (NumberSelector.compare ev cfg b a) := by
  have hvea : BaseSelector.validateEmpty a = none := validateEmpty_none ha
  have hveb : BaseSelector.validateEmpty b = none := validateEmpty_none hb
  unfold NumberSelector.compare
  rw [hvea, hveb]
  try dsimp only
  cases hva : NumberSelector.validate ev cfg a with
  | error ea =>
      cases hvb : NumberSelector.validate ev cfg b with
      | error eb =>
          rw [bind_error_eq, bind_error_eq]
          rfl
      | ok rb =>
          rw [bind_error_eq, bind_ok_eq]
          try dsimp only
          rw [bind_error_eq]
  | ok ra =>
      cases hvb : NumberSelector.validate ev cfg b with
      | error eb =>
          rw [bind_ok_eq, bind_error_eq]
          try dsimp only
          rw [bind_error_eq]
      | ok rb =>
          rw [bind_ok_eq, bind_ok_eq]
          try dsimp only
          rw [bind_ok_eq, bind_ok_eq]
          try dsimp only
          by_cases hrA : ra.ok = some true
          · by_cases hrB : rb.ok = some true
            · rw [hrA, hrB]
              simp only [ne_eq, not_true_eq_false, Bool.false_eq_true,
                if_false, reduceCtorEq, ite_false]
              cases hna : BaseSelector.normalizeInput cfg a with
              | error e =>
                  cases hnb : BaseSelector.normalizeInput cfg b with
                  | error e' => rw [bind_error_eq, bind_error_eq]
                  | ok nb =>
                      rw [bind_error_eq, bind_ok_eq]
                      try dsimp only
                      rw [bind_error_eq]
              | ok na =>
                  cases hnb : BaseSelector.normalizeInput cfg b with
                  | error e' =>
                      rw [bind_ok_eq, bind_error_eq]
                      try dsimp only
                      rw [bind_error_eq]
                  | ok nb =>
                      rw [bind_ok_eq, bind_ok_eq]
                      try dsimp only
                      rw [bind_ok_eq, bind_ok_eq]
                      try dsimp only
                      cases hca : ev na [] with
                      | error e =>
                          cases hcb : ev nb [] with
                          | error e' => rw [bind_error_eq, bind_error_eq]
                          | ok uv =>
                              rw [bind_error_eq, bind_ok_eq]
                              try dsimp only
                              rw [bind_error_eq]
                      | ok cv =>
                          cases hcb : ev nb [] with
                          | error e' =>
                              rw [bind_ok_eq, bind_error_eq]
                              try dsimp only
                              rw [bind_error_eq]
                          | ok uv =>
                              rw [bind_ok_eq, bind_ok_eq]
                              try dsimp only
                              rw [bind_ok_eq, bind_ok_eq]
                              rw [pure_eq_ok, pure_eq_ok]
                              try dsimp only
                              rw [absSub_comm uv cv]
            · have hb' := number_validate_ok_bool hb hvb
              rw [hrA]
              rcases hb' with h | h
              · exact absurd h hrB
              · rw [h]
                simp [okOf, h, BaseSelector.createErrorResponse]
          · by_cases hrB : rb.ok = some true
            · have ha' := number_validate_ok_bool ha hva
              rw [hrB]
              rcases ha' with h | h
              · exact absurd h hrA
              · rw [h]
                simp [okOf, h, BaseSelector.createErrorResponse]
            · have ha' := number_validate_ok_bool ha hva
              have hb' := number_validate_ok_bool hb hvb
              rcases ha' with h | h
              · exact absurd h hrA
              · rcases hb' with h' | h'
                · exact absurd h' hrB
                · rw [h, h']
                  simp [okOf]

/-- Witness for C7: two nonempty numeric answers compare symmetrically. -/
theorem number_compare_ok_symm_witness :
    jsTrim "1".data ≠ [] ∧ jsTrim "2".data ≠ [] ∧
    okOf (NumberSelector.compare mathjsEval {} "1".data "2".data) =
      okOf (NumberSelector.compare mathjsEval {} "2".data "1".data) :=
  ⟨by decide, by decide,
    number_compare_ok_symm mathjsEval {} "1".data "2".data (by decide)
      (by decide)⟩

/-- Counterexample to C7 as stated: with an empty answer on one side the two
orders disagree — the empty user answer gives `ok = null`, the empty correct
answer gives `ok = false` (`system_error`). -/
theorem number_compare_ok_asymmetric_on_empty :
    okOf (NumberSelector.compare mathjsEval {} "1".data "".data) ≠
      okOf (NumberSelector.compare mathjsEval {} "".data "1".data) := by decide

/-- **C8** Dimension guard: for the vector and the point validator, whenever
both inputs pass format validation but the component/coordinate counts of
their normalized forms differ, `compare` returns `ok = false` with metadata
type `dimension_mismatch`, regardless of the component values. -/
theorem vector_point_dimension_guard :
    (∀ (ev : EvalFn) (cfg : SelectorConfig) (a b : Str)
        (ra rb : ValidationResult) (cn un : Str),
      jsTrim b ≠ [] →
      VectorSelector.validate ev cfg a = .ok ra → ra.ok = some true →
      VectorSelector.validate ev cfg b = .ok rb → rb.ok = some true →
      BaseSelector.normalizeInput cfg a = .ok cn →
      BaseSelector.normalizeInput cfg b = .ok un →
      (VectorSelector.extractVectorComponents cn).length ≠
        (VectorSelector.extractVectorComponents un).length →
      (VectorSelector.compare ev cfg a b).map (fun r => (r.ok, r.mtype)) =
        .ok (some false, "dimension_mismatch")) ∧
    (∀ (ev : EvalFn) (cfg : SelectorConfig) (a b : Str)
        (ra rb : ValidationResult) (cn un : Str),
      jsTrim b ≠ [] →
      PointSelector.validate ev cfg a = .ok ra → ra.ok = some true →
      PointSelector.validate ev cfg b = .ok rb → rb.ok = some true →
      BaseSelector.normalizeInput cfg a = .ok cn →
      BaseSelector.normalizeInput cfg b = .ok un →
      (PointSelector.extractPointCoordinates cn).length ≠
        (PointSelector.extractPointCoordinates un).length →
      (PointSelector.compare ev cfg a b).map (fun r => (r.ok, r.mtype)) =
        .ok (some false, "dimension_mismatch")) := by
  constructor
  · intro ev cfg a b ra rb cn un hb hva hra hvb hrb hna hnb hdim
    unfold VectorSelector.compare
    rw [validateEmpty_none hb]
    try dsimp only
    rw [hva, bind_ok_eq]
    try dsimp only
    rw [hvb, bind_ok_eq]
    try dsimp only
    rw [hra, hrb]
    simp only [ne_eq, not_true_eq_false, Bool.false_eq_true, if_false,
      reduceCtorEq, ite_false]
    rw [hna, bind_ok_eq]
    try dsimp only
    rw [hnb, bind_ok_eq]
    try dsimp only
    rw [if_pos hdim]
    rfl
  · intro ev cfg a b ra rb cn un hb hva hra hvb hrb hna hnb hdim
    unfold PointSelector.compare
    rw [validateEmpty_none hb]
    try dsimp only
    rw [hva, bind_ok_eq]
    try dsimp only
    rw [hvb, bind_ok_eq]
    try dsimp only
    rw [hra, hrb]
    simp only [ne_eq, not_true_eq_false, Bool.false_eq_true, if_false,
      reduceCtorEq, ite_false]
    rw [hna, bind_ok_eq]
    try dsimp only
    rw [hnb, bind_ok_eq]
    try dsimp only
    rw [if_pos hdim]
    rfl

/-- Witness for C8: `[1,2]` against `[1,2,3]` and `(1,2)` against `(1,2,3)`,
with equal values on the shared components. -/
theorem vector_point_dimension_guard_witness :
    (VectorSelector.compare mathjsEval {} "[1,2]".data "[1,2,3]".data).map
        (fun r => (r.ok, r.mtype)) = .ok (some false, "dimension_mismatch") ∧
    (PointSelector.compare mathjsEval {} "(1,2)".data "(1,2,3)".data).map
        (fun r => (r.ok, r.mtype)) = .ok (some false, "dimension_mismatch") :=
  ⟨(vector_point_dimension_guard).1 mathjsEval {} "[1,2]".data "[1,2,3]".data
      (BaseSelector.createSuccessResponse "Vector válido" "es un vector válido"
        "valid_vector")
      (BaseSelector.createSuccessResponse "Vector válido" "es un vector válido"
        "valid_vector")
      "[1,2]".data "[1,2,3]".data (by decide) (by decide) (by decide)
      (by decide) (by decide) (by decide) (by decide) (by decide),
    (vector_point_dimension_guard).2 mathjsEval {} "(1,2)".data "(1,2,3)".data
      (BaseSelector.createSuccessResponse "Punto válido" "es un punto válido"
        "valid_point")
      (BaseSelector.createSuccessResponse "Punto válido" "es un punto válido"
        "valid_point")
      "(1,2)".data "(1,2,3)".data (by decide) (by decide) (by decide)
      (by decide) (by decide) (by decide) (by decide) (by decide)⟩

/-- **C9** Non-finite values are rejected: a validated input whose normalized
form evaluates to anything that is not a finite number fails
`NumberSelector.validate` with `ok = false` and type `invalid_number`; the
normalization rewrites the glyph `∞` (via `infty`) to the literal `1e309`,
which evaluates to positive infinity, so `validate "∞"` is rejected, and a
set interval with an infinite endpoint such as `(0, ∞)` is reported
invalid. -/
theorem nonfinite_values_rejected :
    (∀ (ev : EvalFn) (cfg : SelectorConfig) (s n : Str) (v : JsNum),
      jsTrim s ≠ [] → BaseSelector.normalizeInput cfg s = .ok n →
      ev n [] = .ok v → (v.isNumber && !v.isNaN && v.isFinite) = false →
      (NumberSelector.validate ev cfg s).map (fun r => (r.ok, r.mtype)) =
        .ok (some false, "invalid_number")) ∧
    BaseSelector.normalizeInput {} "∞".data = .ok "1e309".data ∧
    mathjsEval "1e309".data [] = .ok JsNum.posInf ∧
    (NumberSelector.validate mathjsEval {} "∞".data).map
      (fun r => (r.ok, r.mtype)) = .ok (some false, "invalid_number") ∧
    (SetSelector.validateInterval mathjsEval {} "(0, 1e309)".data).ok =
      some false ∧
    (SetSelector.validate mathjsEval {} "(0, ∞)".data).map
      (fun r => (r.ok, r.mtype)) = .ok (some false, "invalid_set") := by
  refine ⟨?_, by decide, by decide, by decide, by decide, by decide⟩
  intro ev cfg s n v hs hn hev hflag
  unfold NumberSelector.validate
  rw [validateEmpty_none hs]
  try dsimp only
  rw [hn, bind_ok_eq]
  try dsimp only
  rw [hev]
  try dsimp only
  rw [hflag]
  simp only [Bool.false_eq_true, if_false]
  rfl

/-- Witness for C9's general clause: the evaluator result `posInf` of the
normalized `"∞"` fails the finiteness flag. -/
theorem nonfinite_values_rejected_witness :
    (JsNum.posInf.isNumber && !JsNum.posInf.isNaN && JsNum.posInf.isFinite) =
      false ∧
    (NumberSelector.validate mathjsEval {} "∞".data).map
      (fun r => (r.ok, r.mtype)) = .ok (some false, "invalid_number") :=
  ⟨by decide,
    (nonfinite_values_rejected).1 mathjsEval {} "∞".data "1e309".data
      JsNum.posInf (by decide) (by decide) (by decide) (by decide)⟩

/-- **C10** Interval endpoint ordering: `validateInterval` accepts an interval
only when its left endpoint is strictly below its right endpoint — whenever
the syntactic checks pass and the endpoints evaluate to finite numbers with
`left ≥ right`, the result is `ok = false` (titled `Error en el orden`); in
particular `(5,0)` and `(2,2)` are rejected and make the whole set
invalid. -/
theorem interval_endpoint_order :
    (∀ (ev : EvalFn) (cfg : SelectorConfig) (interval : Str) (lv rv : JsNum),
      countChar ',' (((jsTrim interval).drop 1).dropLast) = 1 →
      (((jsTrim interval).headD ' ' == '(') ||
        ((jsTrim interval).headD ' ' == '[')) = true →
      (((jsTrim interval).getLastD ' ' == ')') ||
        ((jsTrim interval).getLastD ' ' == ']')) = true →
      ((splitChar ',' (((jsTrim interval).drop 1).dropLast)).map
        jsTrim).headD [] ≠ [] →
      ((splitChar ',' (((jsTrim interval).drop 1).dropLast)).map
        jsTrim).getD 1 [] ≠ [] →
      ev (((splitChar ',' (((jsTrim interval).drop 1).dropLast)).map
        jsTrim).headD []) [] = .ok lv →
      ev (((splitChar ',' (((jsTrim interval).drop 1).dropLast)).map
        jsTrim).getD 1 []) [] = .ok rv →
      (lv.isNumber && lv.isFinite) = true →
      (rv.isNumber && rv.isFinite) = true →
      JsNum.geB lv rv = true →
      (SetSelector.validateInterval ev cfg interval).ok = some false ∧
      (SetSelector.validateInterval ev cfg interval).title =
        "Error en el orden") ∧
    (SetSelector.validateInterval mathjsEval {} "(5,0)".data).ok = some false ∧
    (SetSelector.validateInterval mathjsEval {} "(2,2)".data).ok = some false ∧
    (SetSelector.validate mathjsEval {} "(5,0)".data).map
      (fun r => (r.ok, r.mtype)) = .ok (some false, "invalid_set") ∧
    (SetSelector.validate mathjsEval {} "(2,2)".data).map
      (fun r => (r.ok, r.mtype)) = .ok (some false, "invalid_set") := by
  refine ⟨?_, by decide, by decide, by decide, by decide⟩
  intro ev cfg interval lv rv hc hlb hrb hl hr hel her hfl hfr hge
  unfold SetSelector.validateInterval
  try dsimp only
  rw [hc]
  simp only [ne_eq, not_true_eq_false, Bool.false_eq_true, if_false,
    reduceCtorEq, ite_false]
  rw [hlb, hrb]
  simp only [Bool.and_self, Bool.not_true, Bool.false_eq_true, if_false,
    ite_false]
  simp only [hl, hr, decide_False, Bool.or_self, Bool.false_eq_true, if_false,
    ite_false]
  rw [hel, bind_ok_eq]
  try dsimp only
  rw [her, bind_ok_eq]
  try dsimp only
  rw [pure_eq_ok]
  try dsimp only
  rw [hfl, hfr]
  simp only [Bool.not_true, Bool.false_eq_true, if_false, ite_false]
  rw [hge]
  simp only [if_true, ite_true]
  exact ⟨rfl, rfl⟩

/-- Witness for C10's general clause at `(5,0)`. -/
theorem interval_endpoint_order_witness :
    JsNum.geB (JsNum.num 5) (JsNum.num 0) = true ∧
    (SetSelector.validateInterval mathjsEval {} "(5,0)".data).ok = some false ∧
    (SetSelector.validateInterval mathjsEval {} "(5,0)".data).title =
      "Error en el orden" :=
  ⟨by decide,
    ((interval_endpoint_order).1 mathjsEval {} "(5,0)".data (JsNum.num 5)
      (JsNum.num 0) (by decide) (by decide) (by decide) (by decide) (by decide)
      (by decide) (by decide) (by decide) (by decide) (by decide)).1,
    ((interval_endpoint_order).1 mathjsEval {} "(5,0)".data (JsNum.num 5)
      (JsNum.num 0) (by decide) (by decide) (by decide) (by decide) (by decide)
      (by decide) (by decide) (by decide) (by decide) (by decide)).2⟩

end Matuc
